import Mathlib

/-!
# tcp.hpp : connection establishment and socket lifecycle

A shallow embedding of `src/tcp.hpp` (`tcp::Socket`, `tcp::Server`).

The header is written against two collaborators that are not part of the
repository sources: `net.hpp` (resolver and socket primitives) and `pstd`
(`pstd::until`, `pstd::has`).  The primitives are taken as a parameter
(`net.Prims W`): arbitrary functions over an arbitrary world state `W`, so the
theorems quantify over every behaviour of the resolver and of the socket layer.
Every primitive call is recorded, with its arguments and its result, in a trace
(`Sys.trace`), oldest call first; the theorems about call order, about calls that
are not made and about handles left open are statements about that trace.

Diagnostic output (`tcp::log`) has no effect on control flow and is left out.
-/

/-! ## The collaborator interface (`net.hpp`) -/

/-- Modelled from the spec: `net::family` is declared in `net.hpp` (absent); the
spec (section 6) gives the family hint as the enumeration
Unspecified, IPv4, IPv6-equivalent. -/
inductive net.family where
  | Unspecified
  | IPv4
  | IPv6
  deriving DecidableEq, Repr

/-- Modelled from the spec: `net::type` is declared in `net.hpp` (absent); the
source only uses `net::type::STREAM`. -/
inductive net.type where
  | STREAM
  deriving DecidableEq, Repr

/-- Modelled from the spec: `net::proto` is declared in `net.hpp` (absent); the
source only uses `net::proto::TCP`. -/
inductive net.proto where
  | TCP
  deriving DecidableEq, Repr

/-- Modelled from the spec: `net::status` is declared in `net.hpp` (absent); the
spec (section 2) describes the outcome of a primitive as a tri-state
ok / fail / would-need-retry.  The source only ever tests `== net::status::FAIL`. -/
inductive net.status where
  | OK
  | FAIL
  | RETRY
  deriving DecidableEq, Repr

/-- Modelled from the spec: `net::event` is declared in `net.hpp` (absent); the
spec (section 6) gives the failure outcomes of `recv` as DISCONNECTED and ERROR,
the two values the source compares against. -/
inductive net.event where
  | ERROR
  | DISCONNECTED
  deriving DecidableEq, Repr

/-- The two socket options `Server::bind` sets (`SO_REUSEADDR`, `SO_REUSEPORT`,
constants of the system headers). -/
inductive SockOpt where
  | SO_REUSEADDR
  | SO_REUSEPORT
  deriving DecidableEq, Repr

/-- One resolved address as `net::lookup` yields it (the source prints it with
`next.data()`). -/
abbrev Candidate := String

/-- Payload bytes of a `std::string`. -/
abbrev Bytes := List (Fin 256)

/-- A file-descriptor-like handle (`uint`). -/
abbrev Handle := Nat

/-- The fields of `addrinfo` that the source writes through `net::set_type`,
`net::set_proto`, `net::set_addr` (family and address of the candidate) and
`net::set_port`. -/
structure addrinfo where
  type : Option net.type
  proto : Option net.proto
  addr : Option Candidate
  port : Nat
  deriving DecidableEq, Repr

/-- The value-initialised structure of `new addrinfo()`. -/
def addrinfo.zero : addrinfo := ⟨none, none, none, 0⟩

/-- Modelled from the spec: `net::set_type` (in `net.hpp`, absent) writes the
socket type into the config. -/
def net.set_type (ai : addrinfo) (t : net.type) : addrinfo := { ai with type := some t }

/-- Modelled from the spec: `net::set_proto` (in `net.hpp`, absent) writes the
protocol into the config. -/
def net.set_proto (ai : addrinfo) (p : net.proto) : addrinfo := { ai with proto := some p }

/-- Modelled from the spec: `net::set_addr` (in `net.hpp`, absent) writes the
family and address of the candidate into the config. -/
def net.set_addr (ai : addrinfo) (next : Candidate) : addrinfo := { ai with addr := some next }

/-- Modelled from the spec: `net::set_port` (in `net.hpp`, absent) writes the
16-bit port into the config. -/
def net.set_port (ai : addrinfo) (port : Nat) : addrinfo := { ai with port := port % 2 ^ 16 }

/-- One primitive call, with its arguments and the result it gave. -/
inductive Call where
  | cLookup (host : String) (fam : net.family) (res : List Candidate)
  | cOpen (ai : addrinfo) (res : Option Handle)
  | cConnect (fd : Handle) (ai : addrinfo) (res : net.status)
  | cBind (fd : Handle) (ai : addrinfo) (res : net.status)
  | cOption (fd : Handle) (opt : SockOpt)
  | cListen (fd : Handle) (res : net.status)
  | cAccept (fd : Handle) (ai : addrinfo) (res : Handle × addrinfo)
  | cRecv (fd : Handle) (res : net.event ⊕ Bytes)
  | cClose (fd : Handle)
  deriving DecidableEq, Repr

/-- The resolver and the socket primitives, as arbitrary functions over a world
state `W`: each call sees the current world, answers, and leaves a new world. -/
structure net.Prims (W : Type) where
  lookup : String → net.family → W → List Candidate × W
  open_ : addrinfo → W → Option Handle × W
  connect : Handle → addrinfo → W → net.status × W
  bind : Handle → addrinfo → W → net.status × W
  option : Handle → SockOpt → W → W
  listen : Handle → W → net.status × W
  accept : Handle → addrinfo → W → (Handle × addrinfo) × W
  recv : Handle → W → (net.event ⊕ Bytes) × W
  close : Handle → W → W

/-- The world of the primitives together with the calls made so far. -/
structure Sys (W : Type) where
  world : W
  trace : List Call

variable {W : Type}

/-- The primitive `net::lookup(host, family)`. -/
def net.lookup (P : net.Prims W) (host : String) (fam : net.family) (s : Sys W) :
    List Candidate × Sys W :=
  let r := P.lookup host fam s.world
  (r.1, ⟨r.2, s.trace ++ [Call.cLookup host fam r.1]⟩)

/-- The primitive `net::open(ai)`. -/
def net.open_ (P : net.Prims W) (ai : addrinfo) (s : Sys W) : Option Handle × Sys W :=
  let r := P.open_ ai s.world
  (r.1, ⟨r.2, s.trace ++ [Call.cOpen ai r.1]⟩)

/-- The primitive `net::connect(fd, ai)`. -/
def net.connect (P : net.Prims W) (fd : Handle) (ai : addrinfo) (s : Sys W) :
    net.status × Sys W :=
  let r := P.connect fd ai s.world
  (r.1, ⟨r.2, s.trace ++ [Call.cConnect fd ai r.1]⟩)

/-- The primitive `net::bind(fd, ai)`. -/
def net.bind (P : net.Prims W) (fd : Handle) (ai : addrinfo) (s : Sys W) :
    net.status × Sys W :=
  let r := P.bind fd ai s.world
  (r.1, ⟨r.2, s.trace ++ [Call.cBind fd ai r.1]⟩)

/-- The primitive `net::option(fd, opt)`. -/
def net.option (P : net.Prims W) (fd : Handle) (opt : SockOpt) (s : Sys W) : Sys W :=
  ⟨P.option fd opt s.world, s.trace ++ [Call.cOption fd opt]⟩

/-- The primitive `net::listen(fd)`. -/
def net.listen (P : net.Prims W) (fd : Handle) (s : Sys W) : net.status × Sys W :=
  let r := P.listen fd s.world
  (r.1, ⟨r.2, s.trace ++ [Call.cListen fd r.1]⟩)

/-- The primitive `net::accept(fd, ai)`. -/
def net.accept (P : net.Prims W) (fd : Handle) (ai : addrinfo) (s : Sys W) :
    (Handle × addrinfo) × Sys W :=
  let r := P.accept fd ai s.world
  (r.1, ⟨r.2, s.trace ++ [Call.cAccept fd ai r.1]⟩)

/-- The primitive `net::recv(fd)`. -/
def net.recv (P : net.Prims W) (fd : Handle) (s : Sys W) : (net.event ⊕ Bytes) × Sys W :=
  let r := P.recv fd s.world
  (r.1, ⟨r.2, s.trace ++ [Call.cRecv fd r.1]⟩)

/-- The primitive `net::close(fd)`. -/
def net.close (P : net.Prims W) (fd : Handle) (s : Sys W) : Sys W :=
  ⟨P.close fd s.world, s.trace ++ [Call.cClose fd]⟩

/-! ## `pstd::until` -/

/-- Modelled from the spec: `pstd::until` (library `pstd`, absent) is the
retry-over-candidates iteration of section 4.1: it walks the sequence in the order
given, calls the attempt function on each element in turn, stops at the first
element for which the attempt returns true and yields it, and yields nothing when
the sequence is exhausted or empty.  The attempt function is a closure over
mutable state, threaded here as `σ`. -/
def pstd.until {α σ : Type} : List α → (α → σ → Bool × σ) → σ → Option α × σ
  | [], _, s => (none, s)
  | x :: xs, f, s =>
    let r := f x s
    if r.1 then (some x, r.2) else pstd.until xs f r.2

/-! ## `namespace tcp` -/

/-- Source: `tcp::exception`, carrying its message. -/
structure tcp.exception where
  msg : String
  deriving DecidableEq, Repr

/-- Source: `enum class event { ERROR = EOF, DISCONNECTED }`. -/
inductive tcp.event where
  | ERROR
  | DISCONNECTED
  deriving DecidableEq, Repr

/-- Source: `enum class status { FAIL = EOF, OK }`. -/
inductive tcp.status where
  | FAIL
  | OK
  deriving DecidableEq, Repr

/-- The underlying value of a `tcp::event`: `ERROR = EOF` (that is `-1`) and
`DISCONNECTED` the next value. -/
def tcp.event.code : tcp.event → Int
  | .ERROR => -1
  | .DISCONNECTED => 0

/-- The value-initialised `std::variant<event, std::string>`: its first
alternative, holding the `event` whose underlying value is zero. -/
def tcp.variant_default : tcp.event ⊕ Bytes := Sum.inl tcp.event.DISCONNECTED

/-- The data members of `tcp::Socket`. -/
structure tcp.Socket where
  ai : addrinfo
  id : Handle
  deriving DecidableEq, Repr

/-- The data members of `tcp::Server`. -/
structure tcp.Server where
  ai : addrinfo
  id : Handle
  deriving DecidableEq, Repr

/-- Source: `Socket(std::pair<uint, addrinfo*> pair)`, the constructor used by `Server`. -/
def tcp.Socket.ofPair (pair : Handle × addrinfo) : tcp.Socket := ⟨pair.2, pair.1⟩

/-- Source: `Socket()`: allocates the config and sets type and protocol.  The member `id`
is not initialised by the constructor; `id0` is the value it happens to hold. -/
def tcp.Socket.new (id0 : Handle) : tcp.Socket :=
  ⟨net.set_proto (net.set_type addrinfo.zero net.type.STREAM) net.proto.TCP, id0⟩

/-- Source: `Server()`: allocates the config and sets type and protocol.  The member `id`
is not initialised by the constructor; `id0` is the value it happens to hold. -/
def tcp.Server.new (id0 : Handle) : tcp.Server :=
  ⟨net.set_proto (net.set_type addrinfo.zero net.type.STREAM) net.proto.TCP, id0⟩

/-- Source: `Socket::recv`. -/
def tcp.Socket.recv (P : net.Prims W) (self : tcp.Socket) (s : Sys W) :
    (tcp.event ⊕ Bytes) × Sys W :=
  let out := tcp.variant_default
  let r := net.recv P self.id s
  match r.1 with
  | Sum.inr str => (Sum.inr str, r.2)
  | Sum.inl evnt =>
    let out := if evnt = net.event.DISCONNECTED then Sum.inl tcp.event.DISCONNECTED else out
    let out := if evnt = net.event.ERROR then Sum.inl tcp.event.ERROR else out
    (out, r.2)

/-- Source: `Socket::close`. -/
def tcp.Socket.close (P : net.Prims W) (self : tcp.Socket) (s : Sys W) : Sys W :=
  net.close P self.id s

/-- The per-candidate lambda of `Socket::connect`; it captures the socket by
reference, so the socket is part of the threaded state. -/
def tcp.Socket.connect_attempt (P : net.Prims W) (port : Nat) (next : Candidate)
    (st : tcp.Socket × Sys W) : Bool × (tcp.Socket × Sys W) :=
  let ai := net.set_port (net.set_addr st.1.ai next) port
  let self : tcp.Socket := { st.1 with ai := ai }
  let r := net.open_ P ai st.2
  match r.1 with
  | none => (false, (self, r.2))
  | some fd =>
    let c := net.connect P fd ai r.2
    if c.1 = net.status.FAIL then
      (false, (self, net.close P fd c.2))
    else
      (true, ({ self with id := fd }, c.2))

/-- Source: `Socket::connect`. -/
def tcp.Socket.connect (P : net.Prims W) (port : Nat) (host : String) (fam : net.family)
    (self : tcp.Socket) (s : Sys W) : tcp.status × (tcp.Socket × Sys W) :=
  let l := net.lookup P host fam s
  let r := pstd.until l.1 (tcp.Socket.connect_attempt P port) (self, l.2)
  (if r.1.isSome then tcp.status.OK else tcp.status.FAIL, r.2)

/-- The per-candidate lambda of `Server::bind`. -/
def tcp.Server.bind_attempt (P : net.Prims W) (port : Nat) (next : Candidate)
    (st : tcp.Server × Sys W) : Bool × (tcp.Server × Sys W) :=
  let ai := net.set_port (net.set_addr st.1.ai next) port
  let self : tcp.Server := { st.1 with ai := ai }
  let r := net.open_ P ai st.2
  match r.1 with
  | none => (false, (self, r.2))
  | some fd =>
    let b := net.bind P fd ai r.2
    if b.1 = net.status.FAIL then
      (false, (self, net.close P fd b.2))
    else
      let s1 := net.option P fd SockOpt.SO_REUSEADDR b.2
      let s2 := net.option P fd SockOpt.SO_REUSEPORT s1
      (true, ({ self with id := fd }, s2))

/-- Source: `Server::bind`. -/
def tcp.Server.bind (P : net.Prims W) (port : Nat) (host : String) (fam : net.family)
    (self : tcp.Server) (s : Sys W) : tcp.status × (tcp.Server × Sys W) :=
  let l := net.lookup P host fam s
  let r := pstd.until l.1 (tcp.Server.bind_attempt P port) (self, l.2)
  (if r.1.isSome then tcp.status.OK else tcp.status.FAIL, r.2)

/-- Source: `Server::accept`: either the thrown `tcp::exception` or the returned socket. -/
def tcp.Server.accept (P : net.Prims W) (self : tcp.Server) (s : Sys W) :
    Except tcp.exception tcp.Socket × (tcp.Server × Sys W) :=
  let l := net.listen P self.id s
  if l.1 = net.status.FAIL then
    (Except.error ⟨"unable to listen"⟩, (self, l.2))
  else
    let a := net.accept P self.id self.ai l.2
    (Except.ok (tcp.Socket.ofPair a.1), (self, a.2))

/-! ## Reading a trace -/

/-- The config the per-candidate lambda builds for candidate `c`:
`net::set_addr(ai, c); net::set_port(ai, port)`. -/
def tcp.cfg (a0 : addrinfo) (port : Nat) (c : Candidate) : addrinfo :=
  net.set_port (net.set_addr a0 c) port

/-- The calls made between state `s` and the later state `t`. -/
def Sys.since (s t : Sys W) : List Call := t.trace.drop s.trace.length

/-- The handle a call opened: the result of a `net::open` call. -/
def Call.openedHandle : Call → Option Handle
  | Call.cOpen _ r => r
  | _ => none

/-- The handle a call closed: the argument of a `net::close` call. -/
def Call.closedHandle : Call → Option Handle
  | Call.cClose fd => some fd
  | _ => none

/-- The candidate a `net::open` call was made for: the address its config carries. -/
def Call.candidate : Call → Option Candidate
  | Call.cOpen ai _ => ai.addr
  | _ => none

/-- The handles `net::open` returned, in call order. -/
def opened (tr : List Call) : List Handle := tr.filterMap Call.openedHandle

/-- The handles passed to `net::close`, in call order. -/
def closed (tr : List Call) : List Handle := tr.filterMap Call.closedHandle

/-- The handles opened and not yet closed after the calls of the trace, starting
from the handles `acc`: `net::open` adds the handle it returns, `net::close`
removes one occurrence of its argument. -/
def liveFrom : List Handle → List Call → List Handle
  | acc, [] => acc
  | acc, Call.cOpen _ (some fd) :: tr => liveFrom (acc ++ [fd]) tr
  | acc, Call.cClose fd :: tr => liveFrom (acc.erase fd) tr
  | acc, _ :: tr => liveFrom acc tr

/-- The handles opened by the calls of the trace and still open after them. -/
def live (tr : List Call) : List Handle := liveFrom [] tr

/-- The candidates on which the per-candidate lambda was invoked, in order: the
lambda calls `net::open` exactly once per invocation, as its first primitive call,
on the config that carries the candidate. -/
def attempted (tr : List Call) : List Candidate := tr.filterMap Call.candidate

/-- The call is a `net::connect` or a `net::bind` that did not return FAIL. -/
def Call.succeeded : Call → Bool
  | Call.cConnect _ _ st => decide (st ≠ net.status.FAIL)
  | Call.cBind _ _ st => decide (st ≠ net.status.FAIL)
  | _ => false

/-- The trace holds no `net::option` call. -/
def noOption (tr : List Call) : Prop := ∀ fd opt, Call.cOption fd opt ∉ tr

/-- Candidate config `ai` is reachable for `connect` in world `w`: `net::open`
yields a handle and `net::connect` on that handle does not return FAIL. -/
def net.Prims.connects (P : net.Prims W) (ai : addrinfo) (w : W) : Bool :=
  match P.open_ ai w with
  | (none, _) => false
  | (some fd, w1) => decide ((P.connect fd ai w1).1 ≠ net.status.FAIL)

/-- Candidate config `ai` is bindable in world `w`: `net::open` yields a handle and
`net::bind` on that handle does not return FAIL. -/
def net.Prims.binds (P : net.Prims W) (ai : addrinfo) (w : W) : Bool :=
  match P.open_ ai w with
  | (none, _) => false
  | (some fd, w1) => decide ((P.bind fd ai w1).1 ≠ net.status.FAIL)

/-- The calls of one failed attempt on config `ai`, `op` being the call made on
the opened handle: either `open` alone, yielding no handle, or `open`, the failed
`op`, and `close` of the handle just opened. -/
def failedAttempt (op : Handle → addrinfo → net.status → Call) (ai : addrinfo)
    (seg : List Call) : Prop :=
  seg = [Call.cOpen ai none] ∨
    ∃ fd, seg = [Call.cOpen ai (some fd), op fd ai net.status.FAIL, Call.cClose fd]

/-- The calls of a run of failed attempts, one after the other, on the candidates
`cs` in order. -/
def failedRun (op : Handle → addrinfo → net.status → Call) (mk : Candidate → addrinfo) :
    List Candidate → List Call → Prop
  | [], tr => tr = []
  | c :: cs, tr =>
    ∃ seg rest, tr = seg ++ rest ∧ failedAttempt op (mk c) seg ∧ failedRun op mk cs rest

/-- Call `a` is immediately followed by call `b` in the trace. -/
def adjacent (a b : Call) (tr : List Call) : Prop := ∃ pre post, tr = pre ++ a :: b :: post

/-- Big-step description of the retry loop over the candidates: from world `w`,
trying the candidates `cs` with configs `mk c` makes the calls `tr`, ends in world
`w2`, and yields the winning candidate with its handle, if any.  `opP`/`op` is the
primitive tried on the opened handle and its trace entry; `tlW`/`tl` are what the
winning attempt does after it. -/
inductive Run (P : net.Prims W) (mk : Candidate → addrinfo)
    (opP : Handle → addrinfo → W → net.status × W)
    (op : Handle → addrinfo → net.status → Call)
    (tlW : Handle → W → W) (tl : Handle → List Call) :
    W → List Candidate → List Call → Option (Candidate × Handle) → W → Prop
  | nil (w : W) : Run P mk opP op tlW tl w [] [] none w
  | openFail (w w2 : W) (c : Candidate) (cs : List Candidate) (tr : List Call)
      (r : Option (Candidate × Handle))
      (ho : (P.open_ (mk c) w).1 = none)
      (rest : Run P mk opP op tlW tl (P.open_ (mk c) w).2 cs tr r w2) :
      Run P mk opP op tlW tl w (c :: cs) (Call.cOpen (mk c) none :: tr) r w2
  | opFail (w w2 : W) (c : Candidate) (cs : List Candidate) (fd : Handle) (tr : List Call)
      (r : Option (Candidate × Handle))
      (ho : (P.open_ (mk c) w).1 = some fd)
      (hf : (opP fd (mk c) (P.open_ (mk c) w).2).1 = net.status.FAIL)
      (rest : Run P mk opP op tlW tl
        (P.close fd (opP fd (mk c) (P.open_ (mk c) w).2).2) cs tr r w2) :
      Run P mk opP op tlW tl w (c :: cs)
        (Call.cOpen (mk c) (some fd) :: op fd (mk c) net.status.FAIL :: Call.cClose fd :: tr)
        r w2
  | win (w : W) (c : Candidate) (cs : List Candidate) (fd : Handle) (st : net.status)
      (ho : (P.open_ (mk c) w).1 = some fd)
      (hs : (opP fd (mk c) (P.open_ (mk c) w).2).1 = st)
      (hne : st ≠ net.status.FAIL) :
      Run P mk opP op tlW tl w (c :: cs)
        (Call.cOpen (mk c) (some fd) :: op fd (mk c) st :: tl fd)
        (some (c, fd)) (tlW fd (opP fd (mk c) (P.open_ (mk c) w).2).2)

/-! ## A concrete socket layer -/

/-- A small world for concrete runs: the next handle to hand out and the handles
currently open. -/
structure ExWorld where
  next : Nat
  socks : List Handle
  deriving DecidableEq, Repr

/-- The candidates the concrete resolver knows. -/
def exLookup (host : String) : List Candidate :=
  if host = "dualstack.example" then ["192.0.2.1", "192.0.2.2"]
  else if host = "refused.example" then ["192.0.2.1", "192.0.2.1"]
  else if host = "localhost" then ["127.0.0.1"]
  else []

/-- A concrete socket layer: handles are handed out in increasing order, `connect`
and `bind` fail on address 192.0.2.1 and succeed on every other address, `listen`
succeeds on every open handle, `recv` reports that the peer has closed. -/
def exPrims : net.Prims ExWorld where
  lookup := fun host _ w => (exLookup host, w)
  open_ := fun _ w => (some w.next, ⟨w.next + 1, w.socks ++ [w.next]⟩)
  connect := fun fd ai w =>
    (if fd ∈ w.socks ∧ ai.addr ≠ some "192.0.2.1" then net.status.OK else net.status.FAIL, w)
  bind := fun fd ai w =>
    (if fd ∈ w.socks ∧ ai.addr ≠ some "192.0.2.1" then net.status.OK else net.status.FAIL, w)
  option := fun _ _ w => w
  listen := fun fd w => (if fd ∈ w.socks then net.status.OK else net.status.FAIL, w)
  accept := fun _ ai w => ((w.next, ai), ⟨w.next + 1, w.socks ++ [w.next]⟩)
  recv := fun _ w => (Sum.inl net.event.DISCONNECTED, w)
  close := fun fd w => ⟨w.next, w.socks.erase fd⟩

/-- A world with the three standard descriptors taken and no socket open. -/
def exWorld0 : ExWorld := ⟨3, []⟩

/-- The start of a concrete run: `exWorld0` and no call made yet. -/
def exSys0 : Sys ExWorld := ⟨exWorld0, []⟩

/-- Reachability in the concrete socket layer: every address but 192.0.2.1. -/
def exReach (c : Candidate) : Bool := decide (c ≠ "192.0.2.1")

/-! ## The loop of the source against its big-step description -/

theorem tcp.cfg_cfg (a0 : addrinfo) (port : Nat) (c : Candidate) :
    tcp.cfg (tcp.cfg a0 port c) port = tcp.cfg a0 port := by
  funext d
  simp [tcp.cfg, net.set_port, net.set_addr]

theorem tcp.cfg_addr (a0 : addrinfo) (port : Nat) (c : Candidate) :
    (tcp.cfg a0 port c).addr = some c := by
  simp [tcp.cfg, net.set_port, net.set_addr]

/-- The loop of `Socket::connect` follows `Run`. -/
theorem tcp.Socket.connect_loop_run (P : net.Prims W) (port : Nat) :
    ∀ (l : List Candidate) (self : tcp.Socket) (s : Sys W),
      ∃ tr res w2,
        Run P (tcp.cfg self.ai port) P.connect Call.cConnect (fun _ w => w) (fun _ => [])
          s.world l tr res w2 ∧
        (pstd.until l (tcp.Socket.connect_attempt P port) (self, s)).2.2.trace = s.trace ++ tr ∧
        (pstd.until l (tcp.Socket.connect_attempt P port) (self, s)).2.2.world = w2 ∧
        (pstd.until l (tcp.Socket.connect_attempt P port) (self, s)).1 = res.map Prod.fst ∧
        (pstd.until l (tcp.Socket.connect_attempt P port) (self, s)).2.1.id
          = res.elim self.id Prod.snd := by
  intro l
  induction l with
  | nil =>
    intro self s
    exact ⟨[], none, s.world, Run.nil _, by simp [pstd.until], rfl, rfl, rfl⟩
  | cons c cs ih =>
    intro self s
    cases ho : (P.open_ (tcp.cfg self.ai port c) s.world).1 with
    | none =>
      obtain ⟨tr, res, w2, hrun, htr, hw, hres, hid⟩ :=
        ih { self with ai := tcp.cfg self.ai port c }
          ⟨(P.open_ (tcp.cfg self.ai port c) s.world).2,
            s.trace ++ [Call.cOpen (tcp.cfg self.ai port c) none]⟩
      simp only [tcp.cfg_cfg] at hrun
      refine ⟨Call.cOpen (tcp.cfg self.ai port c) none :: tr, res, w2,
        Run.openFail _ _ _ _ _ _ ho hrun, ?_, ?_, ?_, ?_⟩
      all_goals
        simp only [pstd.until, tcp.Socket.connect_attempt, net.open_, tcp.cfg] at *
        simp only [ho] at *
        simp_all
    | some fd =>
      by_cases hf : (P.connect fd (tcp.cfg self.ai port c)
          (P.open_ (tcp.cfg self.ai port c) s.world).2).1 = net.status.FAIL
      · obtain ⟨tr, res, w2, hrun, htr, hw, hres, hid⟩ :=
          ih { self with ai := tcp.cfg self.ai port c }
            ⟨P.close fd (P.connect fd (tcp.cfg self.ai port c)
                (P.open_ (tcp.cfg self.ai port c) s.world).2).2,
              s.trace ++ [Call.cOpen (tcp.cfg self.ai port c) (some fd)] ++
                [Call.cConnect fd (tcp.cfg self.ai port c) net.status.FAIL] ++
                [Call.cClose fd]⟩
        simp only [tcp.cfg_cfg] at hrun
        refine ⟨Call.cOpen (tcp.cfg self.ai port c) (some fd) ::
            Call.cConnect fd (tcp.cfg self.ai port c) net.status.FAIL :: Call.cClose fd :: tr,
          res, w2, Run.opFail _ _ _ _ _ _ _ ho hf hrun, ?_, ?_, ?_, ?_⟩
        all_goals
          simp only [pstd.until, tcp.Socket.connect_attempt, net.open_, net.connect,
            net.close, tcp.cfg] at *
          simp only [ho, hf] at *
          simp_all
      · refine ⟨_, some (c, fd), _, Run.win _ _ cs _ _ ho rfl hf, ?_, ?_, ?_, ?_⟩
        all_goals
          simp only [pstd.until, tcp.Socket.connect_attempt, net.open_, net.connect,
            net.close, tcp.cfg] at *
          simp only [ho] at *
          simp_all

/-- The loop of `Server::bind` follows `Run`. -/
theorem tcp.Server.bind_loop_run (P : net.Prims W) (port : Nat) :
    ∀ (l : List Candidate) (self : tcp.Server) (s : Sys W),
      ∃ tr res w2,
        Run P (tcp.cfg self.ai port) P.bind Call.cBind
          (fun fd w => P.option fd SockOpt.SO_REUSEPORT (P.option fd SockOpt.SO_REUSEADDR w))
          (fun fd => [Call.cOption fd SockOpt.SO_REUSEADDR, Call.cOption fd SockOpt.SO_REUSEPORT])
          s.world l tr res w2 ∧
        (pstd.until l (tcp.Server.bind_attempt P port) (self, s)).2.2.trace = s.trace ++ tr ∧
        (pstd.until l (tcp.Server.bind_attempt P port) (self, s)).2.2.world = w2 ∧
        (pstd.until l (tcp.Server.bind_attempt P port) (self, s)).1 = res.map Prod.fst ∧
        (pstd.until l (tcp.Server.bind_attempt P port) (self, s)).2.1.id
          = res.elim self.id Prod.snd := by
  intro l
  induction l with
  | nil =>
    intro self s
    exact ⟨[], none, s.world, Run.nil _, by simp [pstd.until], rfl, rfl, rfl⟩
  | cons c cs ih =>
    intro self s
    cases ho : (P.open_ (tcp.cfg self.ai port c) s.world).1 with
    | none =>
      obtain ⟨tr, res, w2, hrun, htr, hw, hres, hid⟩ :=
        ih { self with ai := tcp.cfg self.ai port c }
          ⟨(P.open_ (tcp.cfg self.ai port c) s.world).2,
            s.trace ++ [Call.cOpen (tcp.cfg self.ai port c) none]⟩
      simp only [tcp.cfg_cfg] at hrun
      refine ⟨Call.cOpen (tcp.cfg self.ai port c) none :: tr, res, w2,
        Run.openFail _ _ _ _ _ _ ho hrun, ?_, ?_, ?_, ?_⟩
      all_goals
        simp only [pstd.until, tcp.Server.bind_attempt, net.open_, tcp.cfg] at *
        simp only [ho] at *
        simp_all
    | some fd =>
      by_cases hf : (P.bind fd (tcp.cfg self.ai port c)
          (P.open_ (tcp.cfg self.ai port c) s.world).2).1 = net.status.FAIL
      · obtain ⟨tr, res, w2, hrun, htr, hw, hres, hid⟩ :=
          ih { self with ai := tcp.cfg self.ai port c }
            ⟨P.close fd (P.bind fd (tcp.cfg self.ai port c)
                (P.open_ (tcp.cfg self.ai port c) s.world).2).2,
              s.trace ++ [Call.cOpen (tcp.cfg self.ai port c) (some fd)] ++
                [Call.cBind fd (tcp.cfg self.ai port c) net.status.FAIL] ++
                [Call.cClose fd]⟩
        simp only [tcp.cfg_cfg] at hrun
        refine ⟨Call.cOpen (tcp.cfg self.ai port c) (some fd) ::
            Call.cBind fd (tcp.cfg self.ai port c) net.status.FAIL :: Call.cClose fd :: tr,
          res, w2, Run.opFail _ _ _ _ _ _ _ ho hf hrun, ?_, ?_, ?_, ?_⟩
        all_goals
          simp only [pstd.until, tcp.Server.bind_attempt, net.open_, net.bind,
            net.close, tcp.cfg] at *
          simp only [ho, hf] at *
          simp_all
      · refine ⟨_, some (c, fd), _, Run.win _ _ cs _ _ ho rfl hf, ?_, ?_, ?_, ?_⟩
        all_goals
          simp only [pstd.until, tcp.Server.bind_attempt, net.open_, net.bind, net.option,
            net.close, tcp.cfg] at *
          simp only [ho] at *
          simp_all

/-- The whole of `Socket::connect`: one `lookup`, then the loop. -/
theorem tcp.Socket.connect_run (P : net.Prims W) (port : Nat) (host : String)
    (fam : net.family) (self : tcp.Socket) (s : Sys W) :
    ∃ tr res w2,
      Run P (tcp.cfg self.ai port) P.connect Call.cConnect (fun _ w => w) (fun _ => [])
        (P.lookup host fam s.world).2 (P.lookup host fam s.world).1 tr res w2 ∧
      s.since (tcp.Socket.connect P port host fam self s).2.2
        = Call.cLookup host fam (P.lookup host fam s.world).1 :: tr ∧
      (tcp.Socket.connect P port host fam self s).2.2.world = w2 ∧
      (tcp.Socket.connect P port host fam self s).1
        = (if res.isSome then tcp.status.OK else tcp.status.FAIL) ∧
      (tcp.Socket.connect P port host fam self s).2.1.id = res.elim self.id Prod.snd := by
  obtain ⟨tr, res, w2, hrun, htr, hw, hres, hid⟩ :=
    tcp.Socket.connect_loop_run P port (P.lookup host fam s.world).1 self
      (net.lookup P host fam s).2
  refine ⟨tr, res, w2, hrun, ?_, ?_, ?_, ?_⟩
  · simp only [Sys.since, tcp.Socket.connect, net.lookup] at htr ⊢
    rw [htr]
    simp
  · simpa [tcp.Socket.connect, net.lookup] using hw
  · simp only [tcp.Socket.connect, net.lookup] at hres ⊢
    simp only [hres]
    cases res <;> simp
  · simpa [tcp.Socket.connect, net.lookup] using hid

/-- The whole of `Server::bind`: one `lookup`, then the loop. -/
theorem tcp.Server.bind_run (P : net.Prims W) (port : Nat) (host : String)
    (fam : net.family) (self : tcp.Server) (s : Sys W) :
    ∃ tr res w2,
      Run P (tcp.cfg self.ai port) P.bind Call.cBind
        (fun fd w => P.option fd SockOpt.SO_REUSEPORT (P.option fd SockOpt.SO_REUSEADDR w))
        (fun fd => [Call.cOption fd SockOpt.SO_REUSEADDR, Call.cOption fd SockOpt.SO_REUSEPORT])
        (P.lookup host fam s.world).2 (P.lookup host fam s.world).1 tr res w2 ∧
      s.since (tcp.Server.bind P port host fam self s).2.2
        = Call.cLookup host fam (P.lookup host fam s.world).1 :: tr ∧
      (tcp.Server.bind P port host fam self s).2.2.world = w2 ∧
      (tcp.Server.bind P port host fam self s).1
        = (if res.isSome then tcp.status.OK else tcp.status.FAIL) ∧
      (tcp.Server.bind P port host fam self s).2.1.id = res.elim self.id Prod.snd := by
  obtain ⟨tr, res, w2, hrun, htr, hw, hres, hid⟩ :=
    tcp.Server.bind_loop_run P port (P.lookup host fam s.world).1 self
      (net.lookup P host fam s).2
  refine ⟨tr, res, w2, hrun, ?_, ?_, ?_, ?_⟩
  · simp only [Sys.since, tcp.Server.bind, net.lookup] at htr ⊢
    rw [htr]
    simp
  · simpa [tcp.Server.bind, net.lookup] using hw
  · simp only [tcp.Server.bind, net.lookup] at hres ⊢
    simp only [hres]
    cases res <;> simp
  · simpa [tcp.Server.bind, net.lookup] using hid

/-! ## What a run looks like -/

/-- A run either fails on every candidate, or fails on the candidates before the
winner and ends with the calls of the winning attempt. -/
theorem Run.shape {P : net.Prims W} {mk : Candidate → addrinfo}
    {opP : Handle → addrinfo → W → net.status × W}
    {op : Handle → addrinfo → net.status → Call}
    {tlW : Handle → W → W} {tl : Handle → List Call}
    {w w2 : W} {cs : List Candidate} {tr : List Call} {res : Option (Candidate × Handle)}
    (h : Run P mk opP op tlW tl w cs tr res w2) :
    (res = none ∧ failedRun op mk cs tr) ∨
    (∃ pre c post fd st tr0, res = some (c, fd) ∧ cs = pre ++ c :: post ∧
      failedRun op mk pre tr0 ∧ st ≠ net.status.FAIL ∧
      tr = tr0 ++ (Call.cOpen (mk c) (some fd) :: op fd (mk c) st :: tl fd)) := by
  induction h with
  | nil w => exact Or.inl ⟨rfl, rfl⟩
  | openFail w w2 c cs tr r ho rest ih =>
    rcases ih with ⟨hr, hf⟩ | ⟨pre, d, post, fd, st, tr0, hr, hcs, hf, hne, htr⟩
    · exact Or.inl ⟨hr, [Call.cOpen (mk c) none], tr, rfl, Or.inl rfl, hf⟩
    · refine Or.inr ⟨c :: pre, d, post, fd, st, Call.cOpen (mk c) none :: tr0, hr, ?_, ?_, hne, ?_⟩
      · simp [hcs]
      · exact ⟨[Call.cOpen (mk c) none], tr0, rfl, Or.inl rfl, hf⟩
      · simp [htr]
  | opFail w w2 c cs fd0 tr r ho hfl rest ih =>
    rcases ih with ⟨hr, hf⟩ | ⟨pre, d, post, fd, st, tr0, hr, hcs, hf, hne, htr⟩
    · exact Or.inl ⟨hr, _, tr, rfl, Or.inr ⟨fd0, rfl⟩, hf⟩
    · refine Or.inr ⟨c :: pre, d, post, fd, st,
        Call.cOpen (mk c) (some fd0) :: op fd0 (mk c) net.status.FAIL :: Call.cClose fd0 :: tr0,
        hr, ?_, ?_, hne, ?_⟩
      · simp [hcs]
      · exact ⟨[Call.cOpen (mk c) (some fd0), op fd0 (mk c) net.status.FAIL, Call.cClose fd0],
          tr0, rfl, Or.inr ⟨fd0, rfl⟩, hf⟩
      · simp [htr]
  | win w c cs fd st ho hs hne =>
    exact Or.inr ⟨[], c, cs, fd, st, [], rfl, rfl, rfl, hne, rfl⟩

/-- When every candidate answers to a fixed reachability `R` whatever the world,
a run that yields nothing saw only unreachable candidates. -/
theorem Run.none_unreachable {P : net.Prims W} {mk : Candidate → addrinfo}
    {opP : Handle → addrinfo → W → net.status × W}
    {op : Handle → addrinfo → net.status → Call}
    {tlW : Handle → W → W} {tl : Handle → List Call}
    {w w2 : W} {cs : List Candidate} {tr : List Call} {res : Option (Candidate × Handle)}
    (h : Run P mk opP op tlW tl w cs tr res w2) (R : Candidate → Bool)
    (hR : ∀ c ∈ cs, ∀ v, (match P.open_ (mk c) v with
      | (none, _) => false
      | (some fd, v1) => decide ((opP fd (mk c) v1).1 ≠ net.status.FAIL)) = R c)
    (hres : res = none) : ∀ c ∈ cs, R c = false := by
  induction h with
  | nil w => simp
  | openFail w w2 c cs tr r ho rest ih =>
    intro d hd
    rcases List.mem_cons.1 hd with rfl | hd
    · have := hR d (List.mem_cons_self _ _) w
      rw [← this]
      revert ho
      rcases P.open_ (mk d) w with ⟨_ | fd, v1⟩ <;> simp
    · exact ih (fun c hc => hR c (List.mem_cons_of_mem _ hc)) hres d hd
  | opFail w w2 c cs fd0 tr r ho hfl rest ih =>
    intro d hd
    rcases List.mem_cons.1 hd with rfl | hd
    · have := hR d (List.mem_cons_self _ _) w
      rw [← this]
      revert ho hfl
      rcases P.open_ (mk d) w with ⟨_ | fd, v1⟩ <;> simp
      rintro rfl h
      exact h
    · exact ih (fun c hc => hR c (List.mem_cons_of_mem _ hc)) hres d hd
  | win w c cs fd st ho hs hne => simp at hres

/-- In a run over candidates answering to a fixed reachability `R`, the candidates
before the winner are unreachable and the winner is reachable. -/
theorem Run.some_reachable {P : net.Prims W} {mk : Candidate → addrinfo}
    {opP : Handle → addrinfo → W → net.status × W}
    {op : Handle → addrinfo → net.status → Call}
    {tlW : Handle → W → W} {tl : Handle → List Call}
    {w w2 : W} {cs : List Candidate} {tr : List Call} {res : Option (Candidate × Handle)}
    (h : Run P mk opP op tlW tl w cs tr res w2) (R : Candidate → Bool)
    (hR : ∀ c ∈ cs, ∀ v, (match P.open_ (mk c) v with
      | (none, _) => false
      | (some fd, v1) => decide ((opP fd (mk c) v1).1 ≠ net.status.FAIL)) = R c)
    (c : Candidate) (fd : Handle) (hres : res = some (c, fd)) : R c = true := by
  induction h with
  | nil w => simp at hres
  | openFail w w2 d cs tr r ho rest ih =>
    exact ih (fun c hc => hR c (List.mem_cons_of_mem _ hc)) hres
  | opFail w w2 d cs fd0 tr r ho hfl rest ih =>
    exact ih (fun c hc => hR c (List.mem_cons_of_mem _ hc)) hres
  | win w d cs fd0 st ho hs hne =>
    simp only [Option.some.injEq, Prod.mk.injEq] at hres
    obtain ⟨rfl, rfl⟩ := hres
    have := hR d (List.mem_cons_self _ _) w
    rw [← this]
    revert ho hs
    rcases P.open_ (mk d) w with ⟨_ | fd, v1⟩ <;> simp
    rintro rfl rfl
    exact hne

/-! ## What the calls of failed attempts amount to -/

theorem liveFrom_append (a b : List Call) : ∀ acc, liveFrom acc (a ++ b) = liveFrom (liveFrom acc a) b := by
  induction a with
  | nil => intro acc; rfl
  | cons e a ih =>
    intro acc
    cases e with
    | cOpen ai r => cases r <;> simp [liveFrom, ih]
    | _ => simp [liveFrom, ih]

/-- Failed attempts close what they open. -/
theorem failedRun.opened_eq_closed {op : Handle → addrinfo → net.status → Call}
    {mk : Candidate → addrinfo} (hop : op = Call.cConnect ∨ op = Call.cBind) :
    ∀ (cs : List Candidate) (tr : List Call), failedRun op mk cs tr → opened tr = closed tr := by
  intro cs
  induction cs with
  | nil => rintro tr rfl; rfl
  | cons c cs ih =>
    rintro tr ⟨seg, rest, rfl, hseg, hrest⟩
    have := ih rest hrest
    simp only [opened, closed, List.filterMap_append] at this ⊢
    rw [this]
    rcases hseg with rfl | ⟨fd, rfl⟩
    · simp [Call.openedHandle, Call.closedHandle]
    · rcases hop with rfl | rfl <;> simp [Call.openedHandle, Call.closedHandle]

/-- Failed attempts leave no handle open. -/
theorem failedRun.live_append {op : Handle → addrinfo → net.status → Call}
    {mk : Candidate → addrinfo} (hop : op = Call.cConnect ∨ op = Call.cBind) :
    ∀ (cs : List Candidate) (tr more : List Call), failedRun op mk cs tr →
      liveFrom [] (tr ++ more) = liveFrom [] more := by
  intro cs
  induction cs with
  | nil => rintro tr more rfl; rfl
  | cons c cs ih =>
    rintro tr more ⟨seg, rest, rfl, hseg, hrest⟩
    rw [List.append_assoc, liveFrom_append]
    have hs : liveFrom [] seg = [] := by
      rcases hseg with rfl | ⟨fd, rfl⟩
      · simp [liveFrom]
      · rcases hop with rfl | rfl <;> simp [liveFrom]
    rw [hs]
    exact ih rest more hrest

/-- Failed attempts are made on the candidates in order, once each. -/
theorem failedRun.attempted_eq {op : Handle → addrinfo → net.status → Call}
    {mk : Candidate → addrinfo} (hop : op = Call.cConnect ∨ op = Call.cBind)
    (hmk : ∀ c, (mk c).addr = some c) :
    ∀ (cs : List Candidate) (tr : List Call), failedRun op mk cs tr → attempted tr = cs := by
  intro cs
  induction cs with
  | nil => rintro tr rfl; rfl
  | cons c cs ih =>
    rintro tr ⟨seg, rest, rfl, hseg, hrest⟩
    have := ih rest hrest
    simp only [attempted, List.filterMap_append] at this ⊢
    rw [this]
    rcases hseg with rfl | ⟨fd, rfl⟩
    · simp [Call.candidate, hmk]
    · rcases hop with rfl | rfl <;> simp [Call.candidate, hmk]

/-- Every call of a run of failed attempts is an `open`, a failed `op`, or a
`close`. -/
theorem failedRun.calls {op : Handle → addrinfo → net.status → Call}
    {mk : Candidate → addrinfo} :
    ∀ (cs : List Candidate) (tr : List Call), failedRun op mk cs tr →
      ∀ e ∈ tr, (∃ a r, e = Call.cOpen a r) ∨ (∃ fd a, e = op fd a net.status.FAIL) ∨
        (∃ fd, e = Call.cClose fd) := by
  intro cs
  induction cs with
  | nil => rintro tr rfl e he; simp at he
  | cons c cs ih =>
    rintro tr ⟨seg, rest, rfl, hseg, hrest⟩ e he
    rcases List.mem_append.1 he with he | he
    · rcases hseg with rfl | ⟨fd, rfl⟩
      · simp only [List.mem_singleton] at he
        exact Or.inl ⟨_, _, he⟩
      · simp only [List.mem_cons, List.mem_singleton, List.not_mem_nil, or_false] at he
        rcases he with rfl | rfl | rfl
        · exact Or.inl ⟨_, _, rfl⟩
        · exact Or.inr (Or.inl ⟨_, _, rfl⟩)
        · exact Or.inr (Or.inr ⟨_, rfl⟩)
    · exact ih rest hrest e he

/-- In a run of failed attempts a handle is closed only right after it was opened
and the call on it failed. -/
theorem failedRun.close_after_open {op : Handle → addrinfo → net.status → Call}
    {mk : Candidate → addrinfo} (hop : op = Call.cConnect ∨ op = Call.cBind) :
    ∀ (cs : List Candidate) (tr : List Call), failedRun op mk cs tr →
      ∀ fd, Call.cClose fd ∈ tr → ∃ a pre post,
        tr = pre ++ Call.cOpen a (some fd) :: op fd a net.status.FAIL :: Call.cClose fd :: post := by
  intro cs
  induction cs with
  | nil => rintro tr rfl fd he; simp at he
  | cons c cs ih =>
    rintro tr ⟨seg, rest, rfl, hseg, hrest⟩ fd he
    rcases List.mem_append.1 he with he | he
    · rcases hseg with rfl | ⟨fd0, rfl⟩
      · simp at he
      · have : fd = fd0 := by
          rcases hop with rfl | rfl <;> simpa using he
        subst this
        exact ⟨mk c, [], rest, by simp⟩
    · obtain ⟨a, pre, post, h⟩ := ih rest hrest fd he
      exact ⟨a, seg ++ pre, post, by rw [h]; simp⟩

theorem failedRun.noOption {op : Handle → addrinfo → net.status → Call}
    {mk : Candidate → addrinfo} (hop : op = Call.cConnect ∨ op = Call.cBind)
    (cs : List Candidate) (tr : List Call) (h : failedRun op mk cs tr) : noOption tr := by
  intro fd opt hmem
  rcases failedRun.calls cs tr h _ hmem with ⟨a, r, he⟩ | ⟨fd0, a, he⟩ | ⟨fd0, he⟩
  · simp at he
  · rcases hop with rfl | rfl <;> simp at he
  · simp at he

/-! ## The two outcomes of `Socket::connect` and of `Server::bind` -/

/-- The call `Socket::connect` either fails on every candidate, returns FAIL and keeps its
id, or fails on the candidates before the winner, ends with the winner's `open`
and `connect`, returns OK and stores the winner's handle. -/
theorem tcp.Socket.connect_cases (P : net.Prims W) (port : Nat) (host : String)
    (fam : net.family) (self : tcp.Socket) (s : Sys W) :
    ((tcp.Socket.connect P port host fam self s).1 = tcp.status.FAIL ∧
      (tcp.Socket.connect P port host fam self s).2.1.id = self.id ∧
      (∀ R : Candidate → Bool,
        (∀ c ∈ (P.lookup host fam s.world).1, ∀ v, P.connects (tcp.cfg self.ai port c) v = R c) →
        ∀ c ∈ (P.lookup host fam s.world).1, R c = false) ∧
      ∃ tr, s.since (tcp.Socket.connect P port host fam self s).2.2
          = Call.cLookup host fam (P.lookup host fam s.world).1 :: tr ∧
        failedRun Call.cConnect (tcp.cfg self.ai port) (P.lookup host fam s.world).1 tr) ∨
    ((tcp.Socket.connect P port host fam self s).1 = tcp.status.OK ∧
      ∃ pre c post fd st tr0, (P.lookup host fam s.world).1 = pre ++ c :: post ∧
        failedRun Call.cConnect (tcp.cfg self.ai port) pre tr0 ∧ st ≠ net.status.FAIL ∧
        (∀ R : Candidate → Bool,
          (∀ c ∈ (P.lookup host fam s.world).1, ∀ v, P.connects (tcp.cfg self.ai port c) v = R c) →
          R c = true) ∧
        s.since (tcp.Socket.connect P port host fam self s).2.2
          = Call.cLookup host fam (P.lookup host fam s.world).1 ::
              (tr0 ++ [Call.cOpen (tcp.cfg self.ai port c) (some fd),
                Call.cConnect fd (tcp.cfg self.ai port c) st]) ∧
        (tcp.Socket.connect P port host fam self s).2.1.id = fd) := by
  obtain ⟨tr, res, w2, hrun, htr, -, hres, hid⟩ := tcp.Socket.connect_run P port host fam self s
  rcases hrun.shape with ⟨hr, hf⟩ | ⟨pre, c, post, fd, st, tr0, hr, hcs, hf, hne, htr0⟩
  · subst hr
    refine Or.inl ⟨by simpa using hres, by simpa using hid, ?_, tr, htr, hf⟩
    intro R hR
    exact hrun.none_unreachable R (fun c hc v => hR c hc v) rfl
  · subst hr
    refine Or.inr ⟨by simpa using hres, pre, c, post, fd, st, tr0, hcs, hf, hne, ?_, ?_,
      by simpa using hid⟩
    · intro R hR
      exact hrun.some_reachable R (fun c hc v => hR c hc v) c fd rfl
    · rw [htr, htr0]

/-- The call `Server::bind` either fails on every candidate, returns FAIL and keeps its id,
or fails on the candidates before the winner, ends with the winner's `open`,
`bind` and the two `option` calls, returns OK and stores the winner's handle. -/
theorem tcp.Server.bind_cases (P : net.Prims W) (port : Nat) (host : String)
    (fam : net.family) (self : tcp.Server) (s : Sys W) :
    ((tcp.Server.bind P port host fam self s).1 = tcp.status.FAIL ∧
      (tcp.Server.bind P port host fam self s).2.1.id = self.id ∧
      (∀ R : Candidate → Bool,
        (∀ c ∈ (P.lookup host fam s.world).1, ∀ v, P.binds (tcp.cfg self.ai port c) v = R c) →
        ∀ c ∈ (P.lookup host fam s.world).1, R c = false) ∧
      ∃ tr, s.since (tcp.Server.bind P port host fam self s).2.2
          = Call.cLookup host fam (P.lookup host fam s.world).1 :: tr ∧
        failedRun Call.cBind (tcp.cfg self.ai port) (P.lookup host fam s.world).1 tr) ∨
    ((tcp.Server.bind P port host fam self s).1 = tcp.status.OK ∧
      ∃ pre c post fd st tr0, (P.lookup host fam s.world).1 = pre ++ c :: post ∧
        failedRun Call.cBind (tcp.cfg self.ai port) pre tr0 ∧ st ≠ net.status.FAIL ∧
        (∀ R : Candidate → Bool,
          (∀ c ∈ (P.lookup host fam s.world).1, ∀ v, P.binds (tcp.cfg self.ai port c) v = R c) →
          R c = true) ∧
        s.since (tcp.Server.bind P port host fam self s).2.2
          = Call.cLookup host fam (P.lookup host fam s.world).1 ::
              (tr0 ++ [Call.cOpen (tcp.cfg self.ai port c) (some fd),
                Call.cBind fd (tcp.cfg self.ai port c) st,
                Call.cOption fd SockOpt.SO_REUSEADDR, Call.cOption fd SockOpt.SO_REUSEPORT]) ∧
        (tcp.Server.bind P port host fam self s).2.1.id = fd) := by
  obtain ⟨tr, res, w2, hrun, htr, -, hres, hid⟩ := tcp.Server.bind_run P port host fam self s
  rcases hrun.shape with ⟨hr, hf⟩ | ⟨pre, c, post, fd, st, tr0, hr, hcs, hf, hne, htr0⟩
  · subst hr
    refine Or.inl ⟨by simpa using hres, by simpa using hid, ?_, tr, htr, hf⟩
    intro R hR
    exact hrun.none_unreachable R (fun c hc v => hR c hc v) rfl
  · subst hr
    refine Or.inr ⟨by simpa using hres, pre, c, post, fd, st, tr0, hcs, hf, hne, ?_, ?_,
      by simpa using hid⟩
    · intro R hR
      exact hrun.some_reachable R (fun c hc v => hR c hc v) c fd rfl
    · rw [htr, htr0]

/-- A failed `connect` or `bind` call is never recorded with a result other than
FAIL in a run of failed attempts. -/
theorem failedRun.op_fail {op : Handle → addrinfo → net.status → Call}
    {mk : Candidate → addrinfo} (hop : op = Call.cConnect ∨ op = Call.cBind)
    (cs : List Candidate) (tr : List Call) (h : failedRun op mk cs tr)
    (fd : Handle) (a : addrinfo) (st : net.status) (hmem : op fd a st ∈ tr) :
    st = net.status.FAIL := by
  rcases failedRun.calls cs tr h _ hmem with ⟨a, r, he⟩ | ⟨fd0, a0, he⟩ | ⟨fd0, he⟩
  · rcases hop with rfl | rfl <;> simp at he
  · rcases hop with rfl | rfl <;> simp at he <;> exact he.2.2
  · rcases hop with rfl | rfl <;> simp at he

/-- Failed attempts leave a single handle that was open before them open, and
open no other. -/
theorem failedRun.live_singleton {op : Handle → addrinfo → net.status → Call}
    {mk : Candidate → addrinfo} (hop : op = Call.cConnect ∨ op = Call.cBind) (x : Handle) :
    ∀ (cs : List Candidate) (tr more : List Call), failedRun op mk cs tr →
      liveFrom [x] (tr ++ more) = liveFrom [x] more := by
  intro cs
  induction cs with
  | nil => rintro tr more rfl; rfl
  | cons c cs ih =>
    rintro tr more ⟨seg, rest, rfl, hseg, hrest⟩
    rw [List.append_assoc, liveFrom_append]
    have hs : liveFrom [x] seg = [x] := by
      rcases hseg with rfl | ⟨fd, rfl⟩
      · simp [liveFrom]
      · by_cases hx : x = fd
        · subst hx
          rcases hop with rfl | rfl <;> simp [liveFrom]
        · rcases hop with rfl | rfl <;> simp [liveFrom, List.erase_cons, hx]
    rw [hs]
    exact ih rest more hrest

/-- The trace after `Socket::connect` is the trace before it followed by the calls
of the call. -/
theorem tcp.Socket.connect_trace (P : net.Prims W) (port : Nat) (host : String)
    (fam : net.family) (self : tcp.Socket) (s : Sys W) :
    (tcp.Socket.connect P port host fam self s).2.2.trace
      = s.trace ++ s.since (tcp.Socket.connect P port host fam self s).2.2 := by
  obtain ⟨tr, res, w2, -, htr, -, -, -⟩ :=
    tcp.Socket.connect_loop_run P port (P.lookup host fam s.world).1 self
      (net.lookup P host fam s).2
  simp only [Sys.since, tcp.Socket.connect, net.lookup] at htr ⊢
  rw [htr]
  simp

/-- After a `Socket::connect` that returns OK, the one handle opened by the call
and still open is the stored id. -/
theorem tcp.Socket.connect_ok_live (P : net.Prims W) (port : Nat) (host : String)
    (fam : net.family) (self : tcp.Socket) (s : Sys W)
    (hok : (tcp.Socket.connect P port host fam self s).1 = tcp.status.OK) :
    live (s.since (tcp.Socket.connect P port host fam self s).2.2)
      = [(tcp.Socket.connect P port host fam self s).2.1.id] := by
  rcases tcp.Socket.connect_cases P port host fam self s with
    ⟨hF, -⟩ | ⟨-, pre, c, post, fd, st, tr0, -, hf, -, -, htr, hid⟩
  · rw [hF] at hok
    exact absurd hok (by decide)
  · rw [htr, hid]
    have := failedRun.live_append (Or.inl rfl) _ tr0
      [Call.cOpen (tcp.cfg self.ai port c) (some fd),
        Call.cConnect fd (tcp.cfg self.ai port c) st] hf
    simpa [live, liveFrom] using this

/-- The trace after `Server::bind` is the trace before it followed by the calls of
the call. -/
theorem tcp.Server.bind_trace (P : net.Prims W) (port : Nat) (host : String)
    (fam : net.family) (self : tcp.Server) (s : Sys W) :
    (tcp.Server.bind P port host fam self s).2.2.trace
      = s.trace ++ s.since (tcp.Server.bind P port host fam self s).2.2 := by
  obtain ⟨tr, res, w2, -, htr, -, -, -⟩ :=
    tcp.Server.bind_loop_run P port (P.lookup host fam s.world).1 self
      (net.lookup P host fam s).2
  simp only [Sys.since, tcp.Server.bind, net.lookup] at htr ⊢
  rw [htr]
  simp

/-- The value-initialised variant of `Socket::recv` holds the event whose
underlying value is zero. -/
theorem tcp.variant_default_code :
    ∃ e, tcp.variant_default = Sum.inl e ∧ e.code = 0 :=
  ⟨tcp.event.DISCONNECTED, rfl, rfl⟩

/-- In the concrete socket layer a candidate is reachable for `connect`, in every
world, exactly when it is not 192.0.2.1. -/
theorem exPrims_connects (a0 : addrinfo) (port : Nat) (c : Candidate) (v : ExWorld) :
    exPrims.connects (tcp.cfg a0 port c) v = exReach c := by
  by_cases h : c = "192.0.2.1" <;>
    simp [net.Prims.connects, exPrims, exReach, tcp.cfg, net.set_port, net.set_addr, h]

/-- In the concrete socket layer a candidate is bindable, in every world, exactly
when it is not 192.0.2.1. -/
theorem exPrims_binds (a0 : addrinfo) (port : Nat) (c : Candidate) (v : ExWorld) :
    exPrims.binds (tcp.cfg a0 port c) v = exReach c := by
  by_cases h : c = "192.0.2.1" <;>
    simp [net.Prims.binds, exPrims, exReach, tcp.cfg, net.set_port, net.set_addr, h]

/-! ## Claims -/

/-- C1. `Socket::connect` returns OK exactly when, for some candidate of the
resolved list, the call's trace holds an `open` on that candidate's config that
yielded a handle, immediately followed by a `connect` on that handle that did not
return FAIL; it returns FAIL exactly when there is no such candidate.  When the
candidates answer to a fixed reachability `R` whatever the state of the world
(`open` yields a handle and `connect` on it does not return FAIL exactly for the
candidates with `R c`), it returns OK exactly when the resolved list holds a
reachable candidate.  The same holds for `Server::bind` with `net::bind` in place
of `net::connect`.  This holds for every port, host, family, endpoint state and
behaviour of the primitives. -/
theorem tcp.connect_bind_ok_iff_some_candidate_succeeds (P : net.Prims W) (port : Nat)
    (host : String) (fam : net.family) (sock : tcp.Socket) (srv : tcp.Server) (s : Sys W) :
    (((tcp.Socket.connect P port host fam sock s).1 = tcp.status.OK ↔
        ∃ c ∈ (P.lookup host fam s.world).1, ∃ fd st, st ≠ net.status.FAIL ∧
          adjacent (Call.cOpen (tcp.cfg sock.ai port c) (some fd))
            (Call.cConnect fd (tcp.cfg sock.ai port c) st)
            (s.since (tcp.Socket.connect P port host fam sock s).2.2)) ∧
      ((tcp.Socket.connect P port host fam sock s).1 = tcp.status.FAIL ↔
        ¬ ∃ c ∈ (P.lookup host fam s.world).1, ∃ fd st, st ≠ net.status.FAIL ∧
          adjacent (Call.cOpen (tcp.cfg sock.ai port c) (some fd))
            (Call.cConnect fd (tcp.cfg sock.ai port c) st)
            (s.since (tcp.Socket.connect P port host fam sock s).2.2)) ∧
      (∀ R : Candidate → Bool,
        (∀ c ∈ (P.lookup host fam s.world).1, ∀ v, P.connects (tcp.cfg sock.ai port c) v = R c) →
        ((tcp.Socket.connect P port host fam sock s).1 = tcp.status.OK ↔
          ∃ c ∈ (P.lookup host fam s.world).1, R c = true))) ∧
    (((tcp.Server.bind P port host fam srv s).1 = tcp.status.OK ↔
        ∃ c ∈ (P.lookup host fam s.world).1, ∃ fd st, st ≠ net.status.FAIL ∧
          adjacent (Call.cOpen (tcp.cfg srv.ai port c) (some fd))
            (Call.cBind fd (tcp.cfg srv.ai port c) st)
            (s.since (tcp.Server.bind P port host fam srv s).2.2)) ∧
      ((tcp.Server.bind P port host fam srv s).1 = tcp.status.FAIL ↔
        ¬ ∃ c ∈ (P.lookup host fam s.world).1, ∃ fd st, st ≠ net.status.FAIL ∧
          adjacent (Call.cOpen (tcp.cfg srv.ai port c) (some fd))
            (Call.cBind fd (tcp.cfg srv.ai port c) st)
            (s.since (tcp.Server.bind P port host fam srv s).2.2)) ∧
      (∀ R : Candidate → Bool,
        (∀ c ∈ (P.lookup host fam s.world).1, ∀ v, P.binds (tcp.cfg srv.ai port c) v = R c) →
        ((tcp.Server.bind P port host fam srv s).1 = tcp.status.OK ↔
          ∃ c ∈ (P.lookup host fam s.world).1, R c = true))) := by
  constructor
  · rcases tcp.Socket.connect_cases P port host fam sock s with
      ⟨hF, -, hun, tr, htr, hf⟩ | ⟨hO, pre, c, post, fd, st, tr0, hl, hf, hne, hre, htr, -⟩
    · have hno : ¬ ∃ c ∈ (P.lookup host fam s.world).1, ∃ fd st, st ≠ net.status.FAIL ∧
          adjacent (Call.cOpen (tcp.cfg sock.ai port c) (some fd))
            (Call.cConnect fd (tcp.cfg sock.ai port c) st)
            (s.since (tcp.Socket.connect P port host fam sock s).2.2) := by
        rintro ⟨c, -, fd, st, hne, pre, post, hadj⟩
        apply hne
        have hmem : Call.cConnect fd (tcp.cfg sock.ai port c) st ∈
            s.since (tcp.Socket.connect P port host fam sock s).2.2 := by
          rw [hadj]; simp
        rw [htr] at hmem
        simp only [List.mem_cons, reduceCtorEq, false_or] at hmem
        exact failedRun.op_fail (Or.inl rfl) _ tr hf fd _ st hmem
      have hR : ∀ R : Candidate → Bool, _ → ¬ ∃ c ∈ (P.lookup host fam s.world).1, R c = true :=
        fun R h => by
          rintro ⟨c, hc, hRc⟩
          have := hun R h c hc
          rw [this] at hRc
          exact absurd hRc (by decide)
      rw [hF]
      refine ⟨by simp [hno], by simp [hno], fun R h => ?_⟩
      simp [hR R h]
    · have hyes : ∃ c ∈ (P.lookup host fam s.world).1, ∃ fd st, st ≠ net.status.FAIL ∧
          adjacent (Call.cOpen (tcp.cfg sock.ai port c) (some fd))
            (Call.cConnect fd (tcp.cfg sock.ai port c) st)
            (s.since (tcp.Socket.connect P port host fam sock s).2.2) :=
        ⟨c, by rw [hl]; simp, fd, st, hne,
          Call.cLookup host fam (P.lookup host fam s.world).1 :: tr0, [], by rw [htr]; simp⟩
      rw [hO]
      refine ⟨by simp [hyes], by simp [hyes], fun R h => ?_⟩
      have : ∃ c ∈ (P.lookup host fam s.world).1, R c = true :=
        ⟨c, by rw [hl]; simp, hre R h⟩
      simp [this]
  · rcases tcp.Server.bind_cases P port host fam srv s with
      ⟨hF, -, hun, tr, htr, hf⟩ | ⟨hO, pre, c, post, fd, st, tr0, hl, hf, hne, hre, htr, -⟩
    · have hno : ¬ ∃ c ∈ (P.lookup host fam s.world).1, ∃ fd st, st ≠ net.status.FAIL ∧
          adjacent (Call.cOpen (tcp.cfg srv.ai port c) (some fd))
            (Call.cBind fd (tcp.cfg srv.ai port c) st)
            (s.since (tcp.Server.bind P port host fam srv s).2.2) := by
        rintro ⟨c, -, fd, st, hne, pre, post, hadj⟩
        apply hne
        have hmem : Call.cBind fd (tcp.cfg srv.ai port c) st ∈
            s.since (tcp.Server.bind P port host fam srv s).2.2 := by
          rw [hadj]; simp
        rw [htr] at hmem
        simp only [List.mem_cons, reduceCtorEq, false_or] at hmem
        exact failedRun.op_fail (Or.inr rfl) _ tr hf fd _ st hmem
      have hR : ∀ R : Candidate → Bool, _ → ¬ ∃ c ∈ (P.lookup host fam s.world).1, R c = true :=
        fun R h => by
          rintro ⟨c, hc, hRc⟩
          have := hun R h c hc
          rw [this] at hRc
          exact absurd hRc (by decide)
      rw [hF]
      refine ⟨by simp [hno], by simp [hno], fun R h => ?_⟩
      simp [hR R h]
    · have hyes : ∃ c ∈ (P.lookup host fam s.world).1, ∃ fd st, st ≠ net.status.FAIL ∧
          adjacent (Call.cOpen (tcp.cfg srv.ai port c) (some fd))
            (Call.cBind fd (tcp.cfg srv.ai port c) st)
            (s.since (tcp.Server.bind P port host fam srv s).2.2) :=
        ⟨c, by rw [hl]; simp, fd, st, hne,
          Call.cLookup host fam (P.lookup host fam s.world).1 :: tr0,
          [Call.cOption fd SockOpt.SO_REUSEADDR, Call.cOption fd SockOpt.SO_REUSEPORT],
          by rw [htr]; simp⟩
      rw [hO]
      refine ⟨by simp [hyes], by simp [hyes], fun R h => ?_⟩
      have : ∃ c ∈ (P.lookup host fam s.world).1, R c = true :=
        ⟨c, by rw [hl]; simp, hre R h⟩
      simp [this]

/-- Witness of C1: "dualstack.example" resolves to a refused and a reachable
candidate, and `connect` and `bind` return OK. -/
theorem tcp.connect_bind_ok_iff_some_candidate_succeeds_witness :
    (∀ c ∈ (exPrims.lookup "dualstack.example" net.family.Unspecified exSys0.world).1,
      ∀ v, exPrims.connects (tcp.cfg (tcp.Socket.new 0).ai 9000 c) v = exReach c) ∧
    (∀ c ∈ (exPrims.lookup "dualstack.example" net.family.Unspecified exSys0.world).1,
      ∀ v, exPrims.binds (tcp.cfg (tcp.Server.new 0).ai 9000 c) v = exReach c) ∧
    ((tcp.Socket.connect exPrims 9000 "dualstack.example" net.family.Unspecified
        (tcp.Socket.new 0) exSys0).1 = tcp.status.OK ↔
      ∃ c ∈ (exPrims.lookup "dualstack.example" net.family.Unspecified exSys0.world).1,
        exReach c = true) ∧
    ((tcp.Server.bind exPrims 9000 "dualstack.example" net.family.Unspecified
        (tcp.Server.new 0) exSys0).1 = tcp.status.OK ↔
      ∃ c ∈ (exPrims.lookup "dualstack.example" net.family.Unspecified exSys0.world).1,
        exReach c = true) ∧
    (tcp.Socket.connect exPrims 9000 "dualstack.example" net.family.Unspecified
      (tcp.Socket.new 0) exSys0).1 = tcp.status.OK ∧
    (tcp.Server.bind exPrims 9000 "dualstack.example" net.family.Unspecified
      (tcp.Server.new 0) exSys0).1 = tcp.status.OK :=
  have h := tcp.connect_bind_ok_iff_some_candidate_succeeds exPrims 9000
    "dualstack.example" net.family.Unspecified (tcp.Socket.new 0) (tcp.Server.new 0) exSys0
  ⟨fun c _ v => exPrims_connects _ _ c v, fun c _ v => exPrims_binds _ _ c v,
    h.1.2.2 exReach (fun c _ v => exPrims_connects _ _ c v),
    h.2.2.2 exReach (fun c _ v => exPrims_binds _ _ c v), by decide, by decide⟩

/-- C2. When every attempt of the call fails (no `connect`, respectively `bind`,
made during the call returns anything but FAIL; an `open` that yields no handle
is followed by no such call), `Socket::connect` and `Server::bind` return FAIL,
the handles `open` returned during the call are exactly the handles passed to
`close` during the call, in the same order, and no handle opened by the call is
still open when it returns. -/
theorem tcp.all_candidates_fail_no_leak (P : net.Prims W) (port : Nat)
    (host : String) (fam : net.family) (sock : tcp.Socket) (srv : tcp.Server) (s : Sys W) :
    ((∀ e ∈ s.since (tcp.Socket.connect P port host fam sock s).2.2, e.succeeded = false) →
      (tcp.Socket.connect P port host fam sock s).1 = tcp.status.FAIL ∧
      opened (s.since (tcp.Socket.connect P port host fam sock s).2.2)
        = closed (s.since (tcp.Socket.connect P port host fam sock s).2.2) ∧
      live (s.since (tcp.Socket.connect P port host fam sock s).2.2) = []) ∧
    ((∀ e ∈ s.since (tcp.Server.bind P port host fam srv s).2.2, e.succeeded = false) →
      (tcp.Server.bind P port host fam srv s).1 = tcp.status.FAIL ∧
      opened (s.since (tcp.Server.bind P port host fam srv s).2.2)
        = closed (s.since (tcp.Server.bind P port host fam srv s).2.2) ∧
      live (s.since (tcp.Server.bind P port host fam srv s).2.2) = []) := by
  constructor
  · intro hall
    rcases tcp.Socket.connect_cases P port host fam sock s with
      ⟨hF, -, -, tr, htr, hf⟩ | ⟨-, pre, c, post, fd, st, tr0, -, -, hne, -, htr, -⟩
    · refine ⟨hF, ?_, ?_⟩
      · rw [htr]
        have := failedRun.opened_eq_closed (Or.inl rfl) _ tr hf
        simpa [opened, closed, Call.openedHandle, Call.closedHandle] using this
      · rw [htr]
        have := failedRun.live_append (Or.inl rfl) _ tr [] hf
        simpa [live, liveFrom] using this
    · exfalso
      have := hall (Call.cConnect fd (tcp.cfg sock.ai port c) st) (by rw [htr]; simp)
      simp [Call.succeeded] at this
      exact hne this
  · intro hall
    rcases tcp.Server.bind_cases P port host fam srv s with
      ⟨hF, -, -, tr, htr, hf⟩ | ⟨-, pre, c, post, fd, st, tr0, -, -, hne, -, htr, -⟩
    · refine ⟨hF, ?_, ?_⟩
      · rw [htr]
        have := failedRun.opened_eq_closed (Or.inr rfl) _ tr hf
        simpa [opened, closed, Call.openedHandle, Call.closedHandle] using this
      · rw [htr]
        have := failedRun.live_append (Or.inr rfl) _ tr [] hf
        simpa [live, liveFrom] using this
    · exfalso
      have := hall (Call.cBind fd (tcp.cfg srv.ai port c) st) (by rw [htr]; simp)
      simp [Call.succeeded] at this
      exact hne this

/-- Witness of C2: the host "refused.example" resolves to two candidates, both
refused, for `connect` and for `bind`. -/
theorem tcp.all_candidates_fail_no_leak_witness :
    ((∀ e ∈ exSys0.since (tcp.Socket.connect exPrims 9000 "refused.example"
        net.family.Unspecified (tcp.Socket.new 0) exSys0).2.2, e.succeeded = false) ∧
      (tcp.Socket.connect exPrims 9000 "refused.example" net.family.Unspecified
        (tcp.Socket.new 0) exSys0).1 = tcp.status.FAIL ∧
      opened (exSys0.since (tcp.Socket.connect exPrims 9000 "refused.example"
        net.family.Unspecified (tcp.Socket.new 0) exSys0).2.2) = [3, 4] ∧
      closed (exSys0.since (tcp.Socket.connect exPrims 9000 "refused.example"
        net.family.Unspecified (tcp.Socket.new 0) exSys0).2.2) = [3, 4] ∧
      live (exSys0.since (tcp.Socket.connect exPrims 9000 "refused.example"
        net.family.Unspecified (tcp.Socket.new 0) exSys0).2.2) = []) ∧
    ((∀ e ∈ exSys0.since (tcp.Server.bind exPrims 9000 "refused.example"
        net.family.Unspecified (tcp.Server.new 0) exSys0).2.2, e.succeeded = false) ∧
      (tcp.Server.bind exPrims 9000 "refused.example" net.family.Unspecified
        (tcp.Server.new 0) exSys0).1 = tcp.status.FAIL ∧
      live (exSys0.since (tcp.Server.bind exPrims 9000 "refused.example"
        net.family.Unspecified (tcp.Server.new 0) exSys0).2.2) = []) :=
  have h := tcp.all_candidates_fail_no_leak exPrims 9000 "refused.example"
    net.family.Unspecified (tcp.Socket.new 0) (tcp.Server.new 0) exSys0
  ⟨⟨by decide, (h.1 (by decide)).1, by decide, by decide, (h.1 (by decide)).2.2⟩,
    ⟨by decide, (h.2 (by decide)).1, (h.2 (by decide)).2.2⟩⟩

/-- A list with exactly one element satisfying `R`, split at an element that
satisfies `R`, has none before it and none after it. -/
theorem filter_one_split (R : Candidate → Bool) (pre post : List Candidate) (c : Candidate)
    (hc : R c = true) (hone : ((pre ++ c :: post).filter R).length = 1) :
    (∀ x ∈ pre, R x = false) ∧ (∀ x ∈ post, R x = false) := by
  simp only [List.filter_append, List.filter_cons, hc, if_true, List.length_append,
    List.length_cons] at hone
  have h1 : (pre.filter R).length = 0 := by omega
  have h2 : (post.filter R).length = 0 := by omega
  constructor
  · intro x hx
    have := List.length_eq_zero.1 h1
    rw [List.filter_eq_nil_iff] at this
    simpa using this x hx
  · intro x hx
    have := List.length_eq_zero.1 h2
    rw [List.filter_eq_nil_iff] at this
    simpa using this x hx

/-- C3. Let every candidate of the resolved list answer to a fixed reachability
`R` whatever the state of the world (`open` yields a handle and `connect`,
respectively `bind`, on it does not return FAIL exactly for the candidates with
`R c`), and let exactly one candidate of the list be reachable.  Then
`Socket::connect` and `Server::bind` return OK; exactly one handle opened by the
call is open afterwards and it is the stored id; and the trace is the `lookup`,
then for each candidate before the reachable one its failed attempt (`open`
alone, or `open`, the failed call and `close` of that handle, before the next
`open`), then the calls of the winning attempt. -/
theorem tcp.exactly_one_reachable_ok_one_handle (P : net.Prims W) (port : Nat)
    (host : String) (fam : net.family) (sock : tcp.Socket) (srv : tcp.Server) (s : Sys W)
    (R : Candidate → Bool)
    (hone : ((P.lookup host fam s.world).1.filter R).length = 1) :
    ((∀ c ∈ (P.lookup host fam s.world).1, ∀ v, P.connects (tcp.cfg sock.ai port c) v = R c) →
      (tcp.Socket.connect P port host fam sock s).1 = tcp.status.OK ∧
      live (s.since (tcp.Socket.connect P port host fam sock s).2.2)
        = [(tcp.Socket.connect P port host fam sock s).2.1.id] ∧
      ∃ pre c post fd st tr0, (P.lookup host fam s.world).1 = pre ++ c :: post ∧
        R c = true ∧ (∀ x ∈ pre, R x = false) ∧ (∀ x ∈ post, R x = false) ∧
        failedRun Call.cConnect (tcp.cfg sock.ai port) pre tr0 ∧ st ≠ net.status.FAIL ∧
        s.since (tcp.Socket.connect P port host fam sock s).2.2
          = Call.cLookup host fam (P.lookup host fam s.world).1 ::
              (tr0 ++ [Call.cOpen (tcp.cfg sock.ai port c) (some fd),
                Call.cConnect fd (tcp.cfg sock.ai port c) st]) ∧
        (tcp.Socket.connect P port host fam sock s).2.1.id = fd) ∧
    ((∀ c ∈ (P.lookup host fam s.world).1, ∀ v, P.binds (tcp.cfg srv.ai port c) v = R c) →
      (tcp.Server.bind P port host fam srv s).1 = tcp.status.OK ∧
      live (s.since (tcp.Server.bind P port host fam srv s).2.2)
        = [(tcp.Server.bind P port host fam srv s).2.1.id] ∧
      ∃ pre c post fd st tr0, (P.lookup host fam s.world).1 = pre ++ c :: post ∧
        R c = true ∧ (∀ x ∈ pre, R x = false) ∧ (∀ x ∈ post, R x = false) ∧
        failedRun Call.cBind (tcp.cfg srv.ai port) pre tr0 ∧ st ≠ net.status.FAIL ∧
        s.since (tcp.Server.bind P port host fam srv s).2.2
          = Call.cLookup host fam (P.lookup host fam s.world).1 ::
              (tr0 ++ [Call.cOpen (tcp.cfg srv.ai port c) (some fd),
                Call.cBind fd (tcp.cfg srv.ai port c) st,
                Call.cOption fd SockOpt.SO_REUSEADDR, Call.cOption fd SockOpt.SO_REUSEPORT]) ∧
        (tcp.Server.bind P port host fam srv s).2.1.id = fd) := by
  constructor
  · intro hR
    rcases tcp.Socket.connect_cases P port host fam sock s with
      ⟨-, -, hun, -⟩ | ⟨hO, pre, c, post, fd, st, tr0, hl, hf, hne, hreach, htr, hid⟩
    · exfalso
      have := hun R hR
      have hnil : (P.lookup host fam s.world).1.filter R = [] := by
        rw [List.filter_eq_nil_iff]
        intro x hx
        simp [this x hx]
      rw [hnil] at hone
      simp at hone
    · have hc := hreach R hR
      have hsplit := filter_one_split R pre post c hc (by rw [← hl]; exact hone)
      refine ⟨hO, ?_, pre, c, post, fd, st, tr0, hl, hc, hsplit.1, hsplit.2, hf, hne, htr, hid⟩
      rw [htr, hid]
      have := failedRun.live_append (Or.inl rfl) _ tr0
        [Call.cOpen (tcp.cfg sock.ai port c) (some fd),
          Call.cConnect fd (tcp.cfg sock.ai port c) st] hf
      simpa [live, liveFrom] using this
  · intro hR
    rcases tcp.Server.bind_cases P port host fam srv s with
      ⟨-, -, hun, -⟩ | ⟨hO, pre, c, post, fd, st, tr0, hl, hf, hne, hreach, htr, hid⟩
    · exfalso
      have := hun R hR
      have hnil : (P.lookup host fam s.world).1.filter R = [] := by
        rw [List.filter_eq_nil_iff]
        intro x hx
        simp [this x hx]
      rw [hnil] at hone
      simp at hone
    · have hc := hreach R hR
      have hsplit := filter_one_split R pre post c hc (by rw [← hl]; exact hone)
      refine ⟨hO, ?_, pre, c, post, fd, st, tr0, hl, hc, hsplit.1, hsplit.2, hf, hne, htr, hid⟩
      rw [htr, hid]
      have := failedRun.live_append (Or.inr rfl) _ tr0
        [Call.cOpen (tcp.cfg srv.ai port c) (some fd),
          Call.cBind fd (tcp.cfg srv.ai port c) st,
          Call.cOption fd SockOpt.SO_REUSEADDR, Call.cOption fd SockOpt.SO_REUSEPORT] hf
      simpa [live, liveFrom] using this

/-- Witness of C3: "dualstack.example" resolves to two candidates, the first
refused, the second reachable; `connect` returns OK on the second candidate
(handle 4, the first handle 3 having been closed) and exactly one handle is left
open. -/
theorem tcp.exactly_one_reachable_ok_one_handle_witness :
    ((exPrims.lookup "dualstack.example" net.family.Unspecified exSys0.world).1.filter
        exReach).length = 1 ∧
    (∀ c ∈ (exPrims.lookup "dualstack.example" net.family.Unspecified exSys0.world).1,
      ∀ v, exPrims.connects (tcp.cfg (tcp.Socket.new 0).ai 9000 c) v = exReach c) ∧
    (∀ c ∈ (exPrims.lookup "dualstack.example" net.family.Unspecified exSys0.world).1,
      ∀ v, exPrims.binds (tcp.cfg (tcp.Server.new 0).ai 9000 c) v = exReach c) ∧
    (tcp.Socket.connect exPrims 9000 "dualstack.example" net.family.Unspecified
      (tcp.Socket.new 0) exSys0).1 = tcp.status.OK ∧
    live (exSys0.since (tcp.Socket.connect exPrims 9000 "dualstack.example"
      net.family.Unspecified (tcp.Socket.new 0) exSys0).2.2)
      = [(tcp.Socket.connect exPrims 9000 "dualstack.example" net.family.Unspecified
          (tcp.Socket.new 0) exSys0).2.1.id] ∧
    (tcp.Socket.connect exPrims 9000 "dualstack.example" net.family.Unspecified
      (tcp.Socket.new 0) exSys0).2.1.id = 4 ∧
    (tcp.Socket.connect exPrims 9000 "dualstack.example" net.family.Unspecified
      (tcp.Socket.new 0) exSys0).2.1.ai.addr = some "192.0.2.2" ∧
    closed (exSys0.since (tcp.Socket.connect exPrims 9000 "dualstack.example"
      net.family.Unspecified (tcp.Socket.new 0) exSys0).2.2) = [3] ∧
    (tcp.Server.bind exPrims 9000 "dualstack.example" net.family.Unspecified
      (tcp.Server.new 0) exSys0).1 = tcp.status.OK ∧
    live (exSys0.since (tcp.Server.bind exPrims 9000 "dualstack.example"
      net.family.Unspecified (tcp.Server.new 0) exSys0).2.2)
      = [(tcp.Server.bind exPrims 9000 "dualstack.example" net.family.Unspecified
          (tcp.Server.new 0) exSys0).2.1.id] :=
  have h := tcp.exactly_one_reachable_ok_one_handle exPrims 9000 "dualstack.example"
    net.family.Unspecified (tcp.Socket.new 0) (tcp.Server.new 0) exSys0 exReach (by decide)
  have hc := h.1 (fun c _ v => exPrims_connects _ _ c v)
  have hb := h.2 (fun c _ v => exPrims_binds _ _ c v)
  ⟨by decide, fun c _ v => exPrims_connects _ _ c v, fun c _ v => exPrims_binds _ _ c v,
    hc.1, hc.2.1, by decide, by decide, by decide, hb.1, hb.2.1⟩

/-- C4. When `net::lookup` returns the empty sequence, `Socket::connect` and
`Server::bind` return FAIL, the only primitive call they make is that `lookup`
(so no `open`, `connect`, `bind`, `option` or `close`), and the stored id is
unchanged. -/
theorem tcp.empty_lookup_fail_no_calls (P : net.Prims W) (port : Nat)
    (host : String) (fam : net.family) (sock : tcp.Socket) (srv : tcp.Server) (s : Sys W)
    (hempty : (P.lookup host fam s.world).1 = []) :
    ((tcp.Socket.connect P port host fam sock s).1 = tcp.status.FAIL ∧
      s.since (tcp.Socket.connect P port host fam sock s).2.2 = [Call.cLookup host fam []] ∧
      (tcp.Socket.connect P port host fam sock s).2.1.id = sock.id) ∧
    ((tcp.Server.bind P port host fam srv s).1 = tcp.status.FAIL ∧
      s.since (tcp.Server.bind P port host fam srv s).2.2 = [Call.cLookup host fam []] ∧
      (tcp.Server.bind P port host fam srv s).2.1.id = srv.id) := by
  constructor
  · simp [tcp.Socket.connect, net.lookup, hempty, pstd.until, Sys.since]
  · simp [tcp.Server.bind, net.lookup, hempty, pstd.until, Sys.since]

/-- Witness of C4: the concrete resolver does not know "no-such-host.invalid". -/
theorem tcp.empty_lookup_fail_no_calls_witness :
    (exPrims.lookup "no-such-host.invalid" net.family.Unspecified exSys0.world).1 = [] ∧
    ((tcp.Socket.connect exPrims 9000 "no-such-host.invalid" net.family.Unspecified
        (tcp.Socket.new 7) exSys0).1 = tcp.status.FAIL ∧
      exSys0.since (tcp.Socket.connect exPrims 9000 "no-such-host.invalid"
        net.family.Unspecified (tcp.Socket.new 7) exSys0).2.2
        = [Call.cLookup "no-such-host.invalid" net.family.Unspecified []] ∧
      (tcp.Socket.connect exPrims 9000 "no-such-host.invalid" net.family.Unspecified
        (tcp.Socket.new 7) exSys0).2.1.id = (tcp.Socket.new 7).id) ∧
    ((tcp.Server.bind exPrims 9000 "no-such-host.invalid" net.family.Unspecified
        (tcp.Server.new 7) exSys0).1 = tcp.status.FAIL ∧
      exSys0.since (tcp.Server.bind exPrims 9000 "no-such-host.invalid"
        net.family.Unspecified (tcp.Server.new 7) exSys0).2.2
        = [Call.cLookup "no-such-host.invalid" net.family.Unspecified []] ∧
      (tcp.Server.bind exPrims 9000 "no-such-host.invalid" net.family.Unspecified
        (tcp.Server.new 7) exSys0).2.1.id = (tcp.Server.new 7).id) :=
  ⟨by decide, tcp.empty_lookup_fail_no_calls exPrims 9000 "no-such-host.invalid"
    net.family.Unspecified (tcp.Socket.new 7) (tcp.Server.new 7) exSys0 (by decide)⟩

/-- No call of a run of failed attempts is a successful `connect` or `bind`. -/
theorem failedRun.not_succeeded {op : Handle → addrinfo → net.status → Call}
    {mk : Candidate → addrinfo} (hop : op = Call.cConnect ∨ op = Call.cBind)
    (cs : List Candidate) (tr : List Call) (h : failedRun op mk cs tr) :
    ∀ e ∈ tr, e.succeeded = false := by
  intro e he
  rcases failedRun.calls cs tr h e he with ⟨a, r, rfl⟩ | ⟨fd0, a0, rfl⟩ | ⟨fd0, rfl⟩
  · rfl
  · rcases hop with rfl | rfl <;> simp [Call.succeeded]
  · rfl

/-- C5. In `Socket::connect` and `Server::bind` the candidates on which the
per-candidate attempt is invoked (read off the `open` calls of the trace) are, in
resolver order and once each: the whole resolved list when the call returns FAIL,
the id being unchanged; and, when it returns OK, the candidates up to and
including the winner `c`, where every attempt before the winner failed, the
winner's `open` yielded the handle `fd`, the call on it did not return FAIL, no
candidate after the winner is attempted, and `fd` is the stored id. -/
theorem tcp.attempts_are_candidates_up_to_first_success (P : net.Prims W) (port : Nat)
    (host : String) (fam : net.family) (sock : tcp.Socket) (srv : tcp.Server) (s : Sys W) :
    (((tcp.Socket.connect P port host fam sock s).1 = tcp.status.FAIL ∧
        attempted (s.since (tcp.Socket.connect P port host fam sock s).2.2)
          = (P.lookup host fam s.world).1 ∧
        (tcp.Socket.connect P port host fam sock s).2.1.id = sock.id) ∨
      ((tcp.Socket.connect P port host fam sock s).1 = tcp.status.OK ∧
        ∃ pre c post fd st tr0, (P.lookup host fam s.world).1 = pre ++ c :: post ∧
          attempted (s.since (tcp.Socket.connect P port host fam sock s).2.2) = pre ++ [c] ∧
          attempted tr0 = pre ∧ (∀ e ∈ tr0, e.succeeded = false) ∧ st ≠ net.status.FAIL ∧
          s.since (tcp.Socket.connect P port host fam sock s).2.2
            = Call.cLookup host fam (P.lookup host fam s.world).1 ::
                (tr0 ++ [Call.cOpen (tcp.cfg sock.ai port c) (some fd),
                  Call.cConnect fd (tcp.cfg sock.ai port c) st]) ∧
          (tcp.Socket.connect P port host fam sock s).2.1.id = fd)) ∧
    (((tcp.Server.bind P port host fam srv s).1 = tcp.status.FAIL ∧
        attempted (s.since (tcp.Server.bind P port host fam srv s).2.2)
          = (P.lookup host fam s.world).1 ∧
        (tcp.Server.bind P port host fam srv s).2.1.id = srv.id) ∨
      ((tcp.Server.bind P port host fam srv s).1 = tcp.status.OK ∧
        ∃ pre c post fd st tr0, (P.lookup host fam s.world).1 = pre ++ c :: post ∧
          attempted (s.since (tcp.Server.bind P port host fam srv s).2.2) = pre ++ [c] ∧
          attempted tr0 = pre ∧ (∀ e ∈ tr0, e.succeeded = false) ∧ st ≠ net.status.FAIL ∧
          s.since (tcp.Server.bind P port host fam srv s).2.2
            = Call.cLookup host fam (P.lookup host fam s.world).1 ::
                (tr0 ++ [Call.cOpen (tcp.cfg srv.ai port c) (some fd),
                  Call.cBind fd (tcp.cfg srv.ai port c) st,
                  Call.cOption fd SockOpt.SO_REUSEADDR, Call.cOption fd SockOpt.SO_REUSEPORT]) ∧
          (tcp.Server.bind P port host fam srv s).2.1.id = fd)) := by
  constructor
  · rcases tcp.Socket.connect_cases P port host fam sock s with
      ⟨hF, hid, -, tr, htr, hf⟩ | ⟨hO, pre, c, post, fd, st, tr0, hl, hf, hne, -, htr, hid⟩
    · refine Or.inl ⟨hF, ?_, hid⟩
      rw [htr]
      have := failedRun.attempted_eq (Or.inl rfl) (tcp.cfg_addr sock.ai port) _ tr hf
      simpa [attempted, Call.candidate] using this
    · have hatt := failedRun.attempted_eq (Or.inl rfl) (tcp.cfg_addr sock.ai port) _ tr0 hf
      refine Or.inr ⟨hO, pre, c, post, fd, st, tr0, hl, ?_, hatt,
        failedRun.not_succeeded (Or.inl rfl) _ tr0 hf, hne, htr, hid⟩
      rw [htr]
      simp only [attempted] at hatt
      simp [attempted, Call.candidate, List.filterMap_append, hatt, tcp.cfg_addr]
  · rcases tcp.Server.bind_cases P port host fam srv s with
      ⟨hF, hid, -, tr, htr, hf⟩ | ⟨hO, pre, c, post, fd, st, tr0, hl, hf, hne, -, htr, hid⟩
    · refine Or.inl ⟨hF, ?_, hid⟩
      rw [htr]
      have := failedRun.attempted_eq (Or.inr rfl) (tcp.cfg_addr srv.ai port) _ tr hf
      simpa [attempted, Call.candidate] using this
    · have hatt := failedRun.attempted_eq (Or.inr rfl) (tcp.cfg_addr srv.ai port) _ tr0 hf
      refine Or.inr ⟨hO, pre, c, post, fd, st, tr0, hl, ?_, hatt,
        failedRun.not_succeeded (Or.inr rfl) _ tr0 hf, hne, htr, hid⟩
      rw [htr]
      simp only [attempted] at hatt
      simp [attempted, Call.candidate, List.filterMap_append, hatt, tcp.cfg_addr]

/-- C6. `Socket::recv` makes exactly one primitive call, `net::recv` on the stored
handle, and maps its outcome: a payload yields the payload alternative with the
same bytes, the peer-closed event yields `event::DISCONNECTED`, the other failure
event yields `event::ERROR`; the result holds exactly one of the two
alternatives. -/
theorem tcp.Socket.recv_maps_outcome (P : net.Prims W) (self : tcp.Socket) (s : Sys W) :
    s.since (tcp.Socket.recv P self s).2 = [Call.cRecv self.id (P.recv self.id s.world).1] ∧
    (tcp.Socket.recv P self s).1 =
      (match (P.recv self.id s.world).1 with
        | Sum.inr payload => Sum.inr payload
        | Sum.inl evnt =>
          if evnt = net.event.DISCONNECTED then Sum.inl tcp.event.DISCONNECTED
          else Sum.inl tcp.event.ERROR) ∧
    (((tcp.Socket.recv P self s).1.isLeft = true ∧ (tcp.Socket.recv P self s).1.isRight = false) ∨
      ((tcp.Socket.recv P self s).1.isLeft = false ∧ (tcp.Socket.recv P self s).1.isRight = true)) := by
  refine ⟨?_, ?_, ?_⟩
  · unfold tcp.Socket.recv
    rcases h : (P.recv self.id s.world).1 with e | b <;>
      simp [net.recv, Sys.since, h]
  · unfold tcp.Socket.recv
    rcases h : (P.recv self.id s.world).1 with e | b
    · cases e <;> simp [net.recv, h, tcp.variant_default]
    · simp [net.recv, h]
  · rcases (tcp.Socket.recv P self s).1 with e | b <;> simp

/-- C8. `Server::accept` first calls `net::listen` once on the stored handle.  If
that returns FAIL it raises `tcp::exception("unable to listen")` and makes no
other call (no second `listen`, no `accept`).  Otherwise it makes exactly one
`net::accept` call on the same handle, with the server's config, and returns the
socket whose id and address info are the pair that call yielded.  The server
itself, its id included, is unchanged either way. -/
theorem tcp.Server.accept_listen_then_accept (P : net.Prims W) (self : tcp.Server)
    (s : Sys W) :
    ((P.listen self.id s.world).1 = net.status.FAIL ∧
      (tcp.Server.accept P self s).1 = Except.error ⟨"unable to listen"⟩ ∧
      s.since (tcp.Server.accept P self s).2.2 = [Call.cListen self.id net.status.FAIL] ∧
      (tcp.Server.accept P self s).2.1 = self) ∨
    ((P.listen self.id s.world).1 ≠ net.status.FAIL ∧
      (tcp.Server.accept P self s).1
        = Except.ok ⟨(P.accept self.id self.ai (P.listen self.id s.world).2).1.2,
            (P.accept self.id self.ai (P.listen self.id s.world).2).1.1⟩ ∧
      s.since (tcp.Server.accept P self s).2.2
        = [Call.cListen self.id (P.listen self.id s.world).1,
            Call.cAccept self.id self.ai
              (P.accept self.id self.ai (P.listen self.id s.world).2).1] ∧
      (tcp.Server.accept P self s).2.1 = self) := by
  by_cases h : (P.listen self.id s.world).1 = net.status.FAIL
  · left
    simp [tcp.Server.accept, net.listen, h, Sys.since]
  · right
    simp [tcp.Server.accept, net.listen, net.accept, h, Sys.since, tcp.Socket.ofPair]

/-- C9. In `Server::bind`, when a candidate wins, the calls on its handle are, in
this order and ending the trace, `open`, `bind`, `option(SO_REUSEADDR)`,
`option(SO_REUSEPORT)`, and that handle is the id stored when the call returns;
the attempts before it are failed attempts, with no `option` call among their
calls.  When no candidate wins there is no `option` call at all and the id is
unchanged. -/
theorem tcp.Server.bind_options_only_for_winner (P : net.Prims W) (port : Nat)
    (host : String) (fam : net.family) (self : tcp.Server) (s : Sys W) :
    ((tcp.Server.bind P port host fam self s).1 = tcp.status.FAIL ∧
      noOption (s.since (tcp.Server.bind P port host fam self s).2.2) ∧
      (tcp.Server.bind P port host fam self s).2.1.id = self.id) ∨
    ((tcp.Server.bind P port host fam self s).1 = tcp.status.OK ∧
      ∃ pre c post fd st tr0, (P.lookup host fam s.world).1 = pre ++ c :: post ∧
        failedRun Call.cBind (tcp.cfg self.ai port) pre tr0 ∧ noOption tr0 ∧
        st ≠ net.status.FAIL ∧
        s.since (tcp.Server.bind P port host fam self s).2.2
          = Call.cLookup host fam (P.lookup host fam s.world).1 ::
              (tr0 ++ [Call.cOpen (tcp.cfg self.ai port c) (some fd),
                Call.cBind fd (tcp.cfg self.ai port c) st,
                Call.cOption fd SockOpt.SO_REUSEADDR, Call.cOption fd SockOpt.SO_REUSEPORT]) ∧
        (tcp.Server.bind P port host fam self s).2.1.id = fd) := by
  rcases tcp.Server.bind_cases P port host fam self s with
    ⟨hF, hid, -, tr, htr, hf⟩ | ⟨hO, pre, c, post, fd, st, tr0, hl, hf, hne, -, htr, hid⟩
  · refine Or.inl ⟨hF, ?_, hid⟩
    rw [htr]
    intro fd opt hmem
    simp only [List.mem_cons, reduceCtorEq, false_or] at hmem
    exact failedRun.noOption (Or.inr rfl) _ tr hf fd opt hmem
  · exact Or.inr ⟨hO, pre, c, post, fd, st, tr0, hl, hf,
      failedRun.noOption (Or.inr rfl) _ tr0 hf, hne, htr, hid⟩

/-- C7, counterexample.  One server binds "localhost" and owns handle 3.  A second
server is freshly constructed, its uninitialised id happening to hold 3: no bind
on it ever returned OK (none was called, and a bind of an unresolvable host
returns FAIL and leaves the id as it was).  `accept` on it, before or after that
failed bind, finds `net::listen` succeeding on handle 3 and returns a socket
instead of raising. -/
theorem tcp.Server.accept_unbound_returns_socket :
    (tcp.Server.bind exPrims 9000 "localhost" net.family.Unspecified
      (tcp.Server.new 0) exSys0).1 = tcp.status.OK ∧
    (tcp.Server.accept exPrims (tcp.Server.new 3)
      (tcp.Server.bind exPrims 9000 "localhost" net.family.Unspecified
        (tcp.Server.new 0) exSys0).2.2).1
      = Except.ok ⟨(tcp.Server.new 3).ai, 4⟩ ∧
    (tcp.Server.bind exPrims 9000 "no-such-host.invalid" net.family.Unspecified
      (tcp.Server.new 3)
      (tcp.Server.bind exPrims 9000 "localhost" net.family.Unspecified
        (tcp.Server.new 0) exSys0).2.2).1 = tcp.status.FAIL ∧
    (tcp.Server.accept exPrims
      (tcp.Server.bind exPrims 9000 "no-such-host.invalid" net.family.Unspecified
        (tcp.Server.new 3)
        (tcp.Server.bind exPrims 9000 "localhost" net.family.Unspecified
          (tcp.Server.new 0) exSys0).2.2).2.1
      (tcp.Server.bind exPrims 9000 "no-such-host.invalid" net.family.Unspecified
        (tcp.Server.new 3)
        (tcp.Server.bind exPrims 9000 "localhost" net.family.Unspecified
          (tcp.Server.new 0) exSys0).2.2).2.2).1
      = Except.ok ⟨(tcp.Server.new 3).ai, 4⟩ :=
  ⟨by decide, rfl, by decide, rfl⟩

/-- C7, amended.  `Server::accept` raises `tcp::exception("unable to listen")`
exactly when `net::listen` on the stored id returns FAIL, and returns a socket
exactly when it does not; the server keeps no record of a bind having succeeded,
and a bind that does not return OK leaves the id as it was. -/
theorem tcp.Server.accept_raises_iff_listen_fails (P : net.Prims W) (self : tcp.Server)
    (s : Sys W) (port : Nat) (host : String) (fam : net.family) :
    ((tcp.Server.accept P self s).1 = Except.error ⟨"unable to listen"⟩ ↔
      (P.listen self.id s.world).1 = net.status.FAIL) ∧
    ((∃ sock, (tcp.Server.accept P self s).1 = Except.ok sock) ↔
      (P.listen self.id s.world).1 ≠ net.status.FAIL) ∧
    ((tcp.Server.bind P port host fam self s).1 = tcp.status.OK ∨
      (tcp.Server.bind P port host fam self s).2.1.id = self.id) := by
  refine ⟨?_, ?_, ?_⟩
  · by_cases h : (P.listen self.id s.world).1 = net.status.FAIL <;>
      simp [tcp.Server.accept, net.listen, h]
  · by_cases h : (P.listen self.id s.world).1 = net.status.FAIL <;>
      simp [tcp.Server.accept, net.listen, h]
  · rcases tcp.Server.bind_cases P port host fam self s with
      ⟨-, hid, -⟩ | ⟨hO, -⟩
    · exact Or.inr hid
    · exact Or.inl hO

/-- C10, counterexample.  A socket connects to "localhost" and stores handle 3;
`connect` is called on it again and returns OK; afterwards the stored id is 4,
handle 3 was never passed to `net::close`, and both handles are open. -/
theorem tcp.Socket.connect_twice_leaks :
    (tcp.Socket.connect exPrims 9000 "localhost" net.family.Unspecified
      (tcp.Socket.new 0) exSys0).1 = tcp.status.OK ∧
    (tcp.Socket.connect exPrims 9000 "localhost" net.family.Unspecified
      (tcp.Socket.new 0) exSys0).2.1.id = 3 ∧
    (tcp.Socket.connect exPrims 9000 "localhost" net.family.Unspecified
      (tcp.Socket.connect exPrims 9000 "localhost" net.family.Unspecified
        (tcp.Socket.new 0) exSys0).2.1
      (tcp.Socket.connect exPrims 9000 "localhost" net.family.Unspecified
        (tcp.Socket.new 0) exSys0).2.2).1 = tcp.status.OK ∧
    ¬ ((tcp.Socket.connect exPrims 9000 "localhost" net.family.Unspecified
          (tcp.Socket.connect exPrims 9000 "localhost" net.family.Unspecified
            (tcp.Socket.new 0) exSys0).2.1
          (tcp.Socket.connect exPrims 9000 "localhost" net.family.Unspecified
            (tcp.Socket.new 0) exSys0).2.2).2.1.id = 3 ∨
        Call.cClose 3 ∈
          (tcp.Socket.connect exPrims 9000 "localhost" net.family.Unspecified
            (tcp.Socket.connect exPrims 9000 "localhost" net.family.Unspecified
              (tcp.Socket.new 0) exSys0).2.1
            (tcp.Socket.connect exPrims 9000 "localhost" net.family.Unspecified
              (tcp.Socket.new 0) exSys0).2.2).2.2.trace) ∧
    live (tcp.Socket.connect exPrims 9000 "localhost" net.family.Unspecified
      (tcp.Socket.connect exPrims 9000 "localhost" net.family.Unspecified
        (tcp.Socket.new 0) exSys0).2.1
      (tcp.Socket.connect exPrims 9000 "localhost" net.family.Unspecified
        (tcp.Socket.new 0) exSys0).2.2).2.2.trace = [3, 4] ∧
    (tcp.Socket.connect exPrims 9000 "localhost" net.family.Unspecified
      (tcp.Socket.connect exPrims 9000 "localhost" net.family.Unspecified
        (tcp.Socket.new 0) exSys0).2.1
      (tcp.Socket.connect exPrims 9000 "localhost" net.family.Unspecified
        (tcp.Socket.new 0) exSys0).2.2).2.2.world.socks = [3, 4] := by
  decide

/-- C10, amended.  When `Socket::connect` is called again on a socket whose
previous `connect` returned OK, the handle stored by the first call is not closed:
after a second call that returns FAIL it is still the stored id and the one handle
of the two calls left open; after a second call that returns OK the stored id is
the newly opened handle and both handles are left open.  The second call passes a
handle to `net::close` only right after it opened that handle itself and `connect`
on it failed. -/
theorem tcp.Socket.connect_again_keeps_prior_open (P : net.Prims W) (port port2 : Nat)
    (host host2 : String) (fam fam2 : net.family) (sock : tcp.Socket) (s : Sys W)
    (hfirst : (tcp.Socket.connect P port host fam sock s).1 = tcp.status.OK) :
    let r1 := tcp.Socket.connect P port host fam sock s
    let r2 := tcp.Socket.connect P port2 host2 fam2 r1.2.1 r1.2.2
    live (s.since r1.2.2) = [r1.2.1.id] ∧
    ((r2.1 = tcp.status.FAIL ∧ r2.2.1.id = r1.2.1.id ∧ live (s.since r2.2.2) = [r1.2.1.id]) ∨
      (r2.1 = tcp.status.OK ∧ live (s.since r2.2.2) = [r1.2.1.id, r2.2.1.id])) ∧
    (∀ fd, Call.cClose fd ∈ r1.2.2.since r2.2.2 →
      ∃ a pre post, r1.2.2.since r2.2.2
        = pre ++ Call.cOpen a (some fd) :: Call.cConnect fd a net.status.FAIL ::
            Call.cClose fd :: post) := by
  intro r1 r2
  have hlive1 : live (s.since r1.2.2) = [r1.2.1.id] :=
    tcp.Socket.connect_ok_live P port host fam sock s hfirst
  have hsince : s.since r2.2.2 = s.since r1.2.2 ++ r1.2.2.since r2.2.2 := by
    have h1 := tcp.Socket.connect_trace P port host fam sock s
    have h2 := tcp.Socket.connect_trace P port2 host2 fam2 r1.2.1 r1.2.2
    show List.drop _ r2.2.2.trace = _
    rw [h2]
    show List.drop _ (r1.2.2.trace ++ _) = _
    rw [h1]
    simp [Sys.since]
  have hlive2 : live (s.since r2.2.2) = liveFrom [r1.2.1.id] (r1.2.2.since r2.2.2) := by
    rw [hsince, live, liveFrom_append]
    exact congrArg (fun l => liveFrom l _) hlive1
  refine ⟨hlive1, ?_⟩
  rcases tcp.Socket.connect_cases P port2 host2 fam2 r1.2.1 r1.2.2 with
    ⟨hF, hid, -, tr, htr, hf⟩ | ⟨hO, pre, c, post, fd, st, tr0, hl, hf, hne, -, htr, hid⟩
  · constructor
    · refine Or.inl ⟨hF, hid, ?_⟩
      rw [hlive2, htr]
      have := failedRun.live_singleton (Or.inl rfl) r1.2.1.id _ tr [] hf
      simpa [liveFrom] using this
    · intro fd hmem
      rw [htr] at hmem ⊢
      simp only [List.mem_cons, reduceCtorEq, false_or] at hmem
      obtain ⟨a, pre, post, h⟩ := failedRun.close_after_open (Or.inl rfl) _ tr hf fd hmem
      exact ⟨a, Call.cLookup host2 fam2 (P.lookup host2 fam2 r1.2.2.world).1 :: pre, post,
        by rw [h]; simp⟩
  · constructor
    · refine Or.inr ⟨hO, ?_⟩
      rw [hlive2, htr]
      have := failedRun.live_singleton (Or.inl rfl) r1.2.1.id _ tr0
        [Call.cOpen (tcp.cfg r1.2.1.ai port2 c) (some fd),
          Call.cConnect fd (tcp.cfg r1.2.1.ai port2 c) st] hf
      simp only [liveFrom] at this ⊢
      rw [this]
      simp [hid, r2]
    · intro fd0 hmem
      rw [htr] at hmem ⊢
      simp only [List.mem_cons, reduceCtorEq, false_or, List.mem_append, List.mem_singleton,
        List.not_mem_nil, or_false] at hmem
      obtain ⟨a, pre, post, h⟩ := failedRun.close_after_open (Or.inl rfl) _ tr0 hf fd0 hmem
      exact ⟨a, Call.cLookup host2 fam2 (P.lookup host2 fam2 r1.2.2.world).1 :: pre,
        post ++ [Call.cOpen (tcp.cfg r1.2.1.ai port2 c) (some fd),
          Call.cConnect fd (tcp.cfg r1.2.1.ai port2 c) st],
        by rw [h]; simp⟩

/-- Witness of the amended C10: the socket connects to "localhost" (handle 3),
then to "dualstack.example": the second call opens 4, fails on it and closes it,
opens 5 and stores it; handles 3 and 5 are left open. -/
theorem tcp.Socket.connect_again_keeps_prior_open_witness :
    (tcp.Socket.connect exPrims 9000 "localhost" net.family.Unspecified
      (tcp.Socket.new 0) exSys0).1 = tcp.status.OK ∧
    live (exSys0.since (tcp.Socket.connect exPrims 9000 "localhost" net.family.Unspecified
      (tcp.Socket.new 0) exSys0).2.2)
      = [(tcp.Socket.connect exPrims 9000 "localhost" net.family.Unspecified
          (tcp.Socket.new 0) exSys0).2.1.id] ∧
    live (exSys0.since (tcp.Socket.connect exPrims 9000 "dualstack.example"
      net.family.Unspecified
      (tcp.Socket.connect exPrims 9000 "localhost" net.family.Unspecified
        (tcp.Socket.new 0) exSys0).2.1
      (tcp.Socket.connect exPrims 9000 "localhost" net.family.Unspecified
        (tcp.Socket.new 0) exSys0).2.2).2.2) = [3, 5] :=
  ⟨by decide,
    (tcp.Socket.connect_again_keeps_prior_open exPrims 9000 9000 "localhost"
      "dualstack.example" net.family.Unspecified net.family.Unspecified
      (tcp.Socket.new 0) exSys0 (by decide)).1,
    by decide⟩
